import Mathlib

/-! ParkMate frontend: token store, request wrapper and route guards.

A shallow embedding of `frontend/src/utils/auth.js` and of the route table of
`frontend/src/router/index.js`.

* Browser built-ins used by the source (`localStorage`, `atob`, `JSON.parse`,
  `String.prototype.split`, the `>` operator with its coercions, `fetch`) are
  modelled first.
* JavaScript numbers are idealised as exact decimals `mant * 10 ^ exp10`: no
  rounding, overflow or underflow of IEEE doubles.
* JavaScript strings are Lean strings (sequences of Unicode scalar values).
* An exception is an `Except.error`, a rejected promise likewise; one call of an
  `async` function is run in isolation (nothing else touches storage while it
  is suspended).
-/

set_option autoImplicit false

namespace ParkMate

/-! ## JavaScript values -/

/-- Values produced by `JSON.parse`; `undefined` is `none : Option Json`. -/
inductive Json
  | null
  | bool (b : Bool)
  | num (mant : Int) (exp10 : Int)
  | str (s : String)
  | arr (items : List Json)
  | obj (props : List (String × Json))
  deriving Repr

/-- Exceptions and promise rejections that the modelled code can raise: `TypeError`,
`SyntaxError`, the `InvalidCharacterError` of `atob`, the rejection of `fetch`, and
`new Error(message)`. -/
inductive JsError
  | typeError
  | syntaxError
  | invalidCharacter
  | fetchRejected
  | error (message : String)
  deriving Repr, DecidableEq

/-- Result of `ToNumber`. -/
inductive JsNum
  | nan
  | posInf
  | negInf
  | dec (mant : Int) (exp10 : Int)
  deriving Repr, DecidableEq

/-- Write `v` under `k` in an object: an existing key keeps its position. -/
def setProp {α : Type} (k : String) (v : α) : List (String × α) → List (String × α)
  | [] => [(k, v)]
  | (k0, v0) :: rest => if k0 = k then (k, v) :: rest else (k0, v0) :: setProp k v rest

/-- Own property lookup in the property list of an object. -/
def lookupProp {α : Type} (k : String) : List (String × α) → Option α
  | [] => none
  | (k0, v0) :: rest => if k0 = k then some v0 else lookupProp k rest

/-- Object spread of `src` into `dst`: every property of `src` is written in order. -/
def spreadInto {α : Type} (dst : List (String × α)) : List (String × α) → List (String × α)
  | [] => dst
  | (k, v) :: rest => spreadInto (setProp k v dst) rest

/-- JavaScript truthiness of a JSON value (`undefined` is handled by the callers). -/
def truthy : Json → Bool
  | .null => false
  | .bool b => b
  | .num mant _ => mant != 0
  | .str s => s != ""
  | .arr _ => true
  | .obj _ => true

/-- Truthiness of a value that may be `undefined`. -/
def truthyVal : Option Json → Bool
  | none => false
  | some v => truthy v

/-- Property read `v.k` for the keys the program reads (`exp`, `is_admin`, `access_token`,
`error`): a `TypeError` on `null`, the own property on an object, `undefined` on every
other value (none of those keys is an index, `length` or on a prototype). -/
def getProp (v : Json) (k : String) : Except JsError (Option Json) :=
  match v with
  | .null => .error .typeError
  | .obj props => .ok (lookupProp k props)
  | _ => .ok none

/-- Strict equality with the boolean `true`: `v === true`. -/
def strictEqTrue : Option Json → Bool
  | some (.bool true) => true
  | _ => false

/-! ## Strings: `split`, `atob` -/

/-- Segments of a string between the dots; `String.prototype.split` with a dot. -/
def splitDots : List Char → List (List Char)
  | [] => [[]]
  | c :: cs =>
    if c = '.' then [] :: splitDots cs
    else
      match splitDots cs with
      | seg :: more => (c :: seg) :: more
      | [] => [[c]]

/-- Evaluation of `token.split` with a dot, then `[1]`: the second segment or `undefined`. -/
def secondSegment (token : String) : Option String :=
  match splitDots token.toList with
  | _ :: seg :: _ => some (String.mk seg)
  | _ => none

/-- Conversion `ToString` of a string that may be `undefined`. -/
def stringOrUndefined : Option String → String
  | none => "undefined"
  | some s => s

/-- ASCII whitespace as the forgiving-base64 decoder strips it: TAB, LF, FF, CR, SPACE. -/
def isAsciiWhitespace (c : Char) : Bool :=
  c.toNat = 9 || c.toNat = 10 || c.toNat = 12 || c.toNat = 13 || c.toNat = 32

/-- Value of a character of the standard base64 alphabet (`+` and `/` for 62 and 63). -/
def base64Value (c : Char) : Option Nat :=
  let n := c.toNat
  if 65 ≤ n ∧ n ≤ 90 then some (n - 65)
  else if 97 ≤ n ∧ n ≤ 122 then some (n - 97 + 26)
  else if 48 ≤ n ∧ n ≤ 57 then some (n - 48 + 52)
  else if c = '+' then some 62
  else if c = '/' then some 63
  else none

/-- Sextets of a string; `none` when a character is outside the alphabet. -/
def sextets : List Char → Option (List Nat)
  | [] => some []
  | c :: cs =>
    match base64Value c, sextets cs with
    | some v, some vs => some (v :: vs)
    | _, _ => none

/-- Bytes of a list of sextets: 4 sextets give 3 bytes; a final group of 2 gives one byte
and a final group of 3 gives two (the spare low bits are dropped). -/
def sextetsToBytes : List Nat → List Nat
  | a :: b :: c :: d :: rest =>
    (a * 4 + b / 16) :: ((b % 16) * 16 + c / 4) :: ((c % 4) * 64 + d) :: sextetsToBytes rest
  | [a, b, c] => [a * 4 + b / 16, (b % 16) * 16 + c / 4]
  | [a, b] => [a * 4 + b / 16]
  | _ => []

/-- Removal of one or two trailing `=` signs. -/
def dropPadding (cs : List Char) : List Char :=
  match cs.reverse with
  | '=' :: '=' :: rest => rest.reverse
  | '=' :: rest => rest.reverse
  | _ => cs

/-- Browser `atob` (forgiving-base64 decode): the binary string, or `InvalidCharacterError`. -/
def atob (data : String) : Except JsError String :=
  let stripped := data.toList.filter (fun c => !isAsciiWhitespace c)
  let body := if stripped.length % 4 = 0 then dropPadding stripped else stripped
  if body.length % 4 = 1 then .error .invalidCharacter
  else
    match sextets body with
    | none => .error .invalidCharacter
    | some vs => .ok (String.mk ((sextetsToBytes vs).map Char.ofNat))

/-! ## Numbers -/

/-- Decimal digit test. -/
def isDigit (c : Char) : Bool := 48 ≤ c.toNat && c.toNat ≤ 57

/-- Value of a run of decimal digits. -/
def digitsValue (cs : List Char) : Nat :=
  cs.foldl (fun acc c => acc * 10 + (c.toNat - 48)) 0

/-- Value of a hexadecimal digit. -/
def hexValue (c : Char) : Option Nat :=
  let n := c.toNat
  if 48 ≤ n ∧ n ≤ 57 then some (n - 48)
  else if 65 ≤ n ∧ n ≤ 70 then some (n - 55)
  else if 97 ≤ n ∧ n ≤ 102 then some (n - 87)
  else none

/-- Exponent part `e`, optional sign, digits: the exponent and the rest; no exponent part
gives 0; an `e` without digits is malformed. -/
def lexExponent (cs : List Char) : Option (Int × List Char) :=
  match cs with
  | [] => some (0, [])
  | c :: rest =>
    if c = 'e' ∨ c = 'E' then
      let negative : Bool := rest.head? = some '-'
      let rest1 := if rest.head? = some '-' ∨ rest.head? = some '+' then rest.tail else rest
      if (rest1.takeWhile isDigit).isEmpty then none
      else
        some (if negative then - (digitsValue (rest1.takeWhile isDigit) : Int)
          else (digitsValue (rest1.takeWhile isDigit) : Int), rest1.dropWhile isDigit)
    else some (0, c :: rest)

/-- Fraction part: a dot and its digits (possibly none), or nothing. -/
def lexFraction (cs : List Char) : Option (List Char) × List Char :=
  match cs with
  | [] => (none, [])
  | c :: rest =>
    if c = '.' then (some (rest.takeWhile isDigit), rest.dropWhile isDigit)
    else (none, c :: rest)

/-- Integer part: `0`, or a run of digits that does not start with `0`. -/
def lexInteger (cs : List Char) : Option (List Char × List Char) :=
  match cs with
  | [] => none
  | c :: rest =>
    if c = '0' then some ([c], rest)
    else if isDigit c then some (c :: rest.takeWhile isDigit, rest.dropWhile isDigit)
    else none

/-- A number of the JSON grammar at the head of the input: optional minus, integer part,
optional fraction with at least one digit, optional exponent. -/
def lexJsonNumber (cs : List Char) : Option (Json × List Char) :=
  let negative : Bool := cs.head? = some '-'
  match lexInteger (if cs.head? = some '-' then cs.tail else cs) with
  | none => none
  | some (ids, rest1) =>
    match lexFraction rest1 with
    | (some [], _) => none
    | (frac, rest2) =>
      match lexExponent rest2 with
      | none => none
      | some (e, rest3) =>
        let m : Int := digitsValue (ids ++ frac.getD [])
        some (.num (if negative then - m else m) (e - (frac.getD []).length), rest3)

/-- White space and line terminators that `ToNumber` trims from a string. -/
def isJsWhitespace (c : Char) : Bool :=
  let n := c.toNat
  (9 ≤ n && n ≤ 13) || n = 32 || n = 160 || n = 0x1680 || (0x2000 ≤ n && n ≤ 0x200A)
    || n = 0x2028 || n = 0x2029 || n = 0x202F || n = 0x205F || n = 0x3000 || n = 0xFEFF

/-- Value of a run of digits in a radix, `none` when empty or when a digit is too large. -/
def radixValue (radix : Nat) (cs : List Char) : Option Nat :=
  if cs.isEmpty then none
  else cs.foldl (fun acc c =>
    match acc, hexValue c with
    | some a, some v => if v < radix then some (a * radix + v) else none
    | _, _ => none) (some 0)

/-- An unsigned decimal literal of `StringToNumber`: digits, optional fraction (either side
of the dot may be empty, not both), optional exponent; the whole input must be used. -/
def unsignedDecimal (cs : List Char) : JsNum :=
  let ids := cs.takeWhile isDigit
  let frac := (lexFraction (cs.dropWhile isDigit)).1
  let fds := frac.getD []
  if ids.isEmpty ∧ fds.isEmpty then .nan
  else
    match lexExponent (lexFraction (cs.dropWhile isDigit)).2 with
    | some (e, []) => .dec (digitsValue (ids ++ fds)) (e - fds.length)
    | _ => .nan

/-- Negation of a number. -/
def JsNum.neg : JsNum → JsNum
  | .nan => .nan
  | .posInf => .negInf
  | .negInf => .posInf
  | .dec m e => .dec (- m) e

/-- Conversion `StringToNumber`: trimmed; empty gives 0; `Infinity`, decimal literals with
an optional sign, and unsigned `0x`, `0o`, `0b` literals; anything else is `NaN`. -/
def stringToNumber (s : String) : JsNum :=
  let cs := ((s.toList.dropWhile isJsWhitespace).reverse.dropWhile isJsWhitespace).reverse
  let radixLit (radix : Nat) (ds : List Char) : JsNum :=
    match radixValue radix ds with
    | some v => .dec v 0
    | none => .nan
  let unsigned (ds : List Char) : JsNum :=
    if ds = "Infinity".toList then .posInf else unsignedDecimal ds
  match cs with
  | [] => .dec 0 0
  | '0' :: 'x' :: ds => radixLit 16 ds
  | '0' :: 'X' :: ds => radixLit 16 ds
  | '0' :: 'o' :: ds => radixLit 8 ds
  | '0' :: 'O' :: ds => radixLit 8 ds
  | '0' :: 'b' :: ds => radixLit 2 ds
  | '0' :: 'B' :: ds => radixLit 2 ds
  | '+' :: ds => unsigned ds
  | '-' :: ds => (unsigned ds).neg
  | ds => unsigned ds

mutual
/-- Whether the conversion of a value to a primitive succeeds. An object made by
`JSON.parse` has no callable property of its own: with an own `toString` property the
conversion finds nothing to call and raises a `TypeError`; without one it uses the
inherited method. An array converts each of its elements. -/
def canConvert : Json → Bool
  | .obj props => (lookupProp "toString" props).isNone
  | .arr items => allConvert items
  | _ => true
/-- Whether every element of an array converts. -/
def allConvert : List Json → Bool
  | [] => true
  | .null :: rest => allConvert rest
  | x :: rest => canConvert x && allConvert rest
end

/-- The number of a value whose conversion to a primitive succeeds. An array goes through
its string form: the empty array is the empty string, a one-element array is its element
(`null` gives the empty string), a longer one contains a comma and is `NaN`; an object is
`NaN`. -/
def numericValue : Json → JsNum
  | .null => .dec 0 0
  | .bool b => if b then .dec 1 0 else .dec 0 0
  | .num m e => .dec m e
  | .str s => stringToNumber s
  | .arr [] => .dec 0 0
  | .arr [.null] => .dec 0 0
  | .arr [.bool _] => .nan
  | .arr [.obj _] => .nan
  | .arr [x] => numericValue x
  | .arr _ => .nan
  | .obj _ => .nan

/-- Conversion `ToNumber` of a value. -/
def toNumber (v : Json) : Except JsError JsNum :=
  if canConvert v then .ok (numericValue v) else .error .typeError

/-- Whether a number is greater than `now / 1000`, for `now` a count of milliseconds;
`NaN` compares false. -/
def JsNum.gtSeconds (v : JsNum) (now : Nat) : Bool :=
  match v with
  | .nan => false
  | .posInf => true
  | .negInf => false
  | .dec m e =>
    if 0 ≤ e then decide ((now : Int) < m * 10 ^ e.toNat * 1000)
    else decide ((now : Int) * 10 ^ (- e).toNat < m * 1000)

/-- The comparison `v > now / 1000` with the coercion of `v` to a number; `undefined`
compares false. -/
def gtSeconds (v : Option Json) (now : Nat) : Except JsError Bool :=
  match v with
  | none => .ok false
  | some j =>
    match toNumber j with
    | .error e => .error e
    | .ok n => .ok (n.gtSeconds now)

/-! ## `JSON.parse` -/

/-- White space of the JSON grammar: TAB, LF, CR, SPACE. -/
def isJsonWhitespace (c : Char) : Bool :=
  c.toNat = 9 || c.toNat = 10 || c.toNat = 13 || c.toNat = 32

/-- Input with leading JSON white space removed. -/
def skipWs (cs : List Char) : List Char := cs.dropWhile isJsonWhitespace

/-- Position inside a string literal: plain text, after a backslash, or inside the four
hexadecimal digits of a unicode escape. -/
inductive StrState
  | plain
  | escape
  | hex (digits : List Nat)

/-- UTF-16 code units of a character. -/
def codeUnits (c : Char) : List Nat :=
  if c.toNat < 0x10000 then [c.toNat]
  else [0xD800 + (c.toNat - 0x10000) / 0x400, 0xDC00 + (c.toNat - 0x10000) % 0x400]

/-- Code unit of a one-character escape. -/
def escapeUnit (c : Char) : Option Nat :=
  if c.toNat = 34 then some 34
  else if c.toNat = 92 then some 92
  else if c = '/' then some 47
  else if c = 'b' then some 8
  else if c = 'f' then some 12
  else if c = 'n' then some 10
  else if c = 'r' then some 13
  else if c = 't' then some 9
  else none

/-- Body of a string literal after its opening quote: the code units (reversed in `acc`)
up to the closing quote, and the rest of the input. Raw control characters, unknown
escapes and an unterminated literal are malformed. -/
def lexString : StrState → List Nat → List Char → Option (List Nat × List Char)
  | _, _, [] => none
  | .plain, acc, c :: cs =>
    if c.toNat = 34 then some (acc.reverse, cs)
    else if c.toNat = 92 then lexString .escape acc cs
    else if c.toNat < 32 then none
    else lexString .plain ((codeUnits c).reverse ++ acc) cs
  | .escape, acc, c :: cs =>
    if c = 'u' then lexString (.hex []) acc cs
    else
      match escapeUnit c with
      | some u => lexString .plain (u :: acc) cs
      | none => none
  | .hex ds, acc, c :: cs =>
    match hexValue c with
    | none => none
    | some v =>
      if ds.length = 3 then lexString .plain ((ds ++ [v]).foldl (fun a d => a * 16 + d) 0 :: acc) cs
      else lexString (.hex (ds ++ [v])) acc cs

/-- Characters of a sequence of code units: a surrogate pair is one character; a lone
surrogate, which a Lean string cannot hold, becomes U+FFFD. -/
def unitsToChars : List Nat → List Char
  | [] => []
  | [u] => [if 0xD800 ≤ u ∧ u ≤ 0xDFFF then Char.ofNat 0xFFFD else Char.ofNat u]
  | hi :: lo :: rest =>
    if 0xD800 ≤ hi ∧ hi ≤ 0xDBFF ∧ 0xDC00 ≤ lo ∧ lo ≤ 0xDFFF then
      Char.ofNat (0x10000 + (hi - 0xD800) * 0x400 + (lo - 0xDC00)) :: unitsToChars rest
    else
      (if 0xD800 ≤ hi ∧ hi ≤ 0xDFFF then Char.ofNat 0xFFFD else Char.ofNat hi)
        :: unitsToChars (lo :: rest)

/-- A string literal after its opening quote. -/
def lexJsonString (cs : List Char) : Option (String × List Char) :=
  match lexString .plain [] cs with
  | some (units, rest) => some (String.mk (unitsToChars units), rest)
  | none => none

/-- The input after a keyword, when it starts with that keyword. -/
def dropKeyword : List Char → List Char → Option (List Char)
  | [], cs => some cs
  | _ :: _, [] => none
  | k :: ks, c :: cs => if k = c then dropKeyword ks cs else none

mutual
/-- One JSON value at the head of the input (after white space) and the rest of the input;
`fuel` bounds the recursion. -/
def parseValue : Nat → List Char → Option (Json × List Char)
  | 0, _ => none
  | fuel + 1, cs =>
    match skipWs cs with
    | [] => none
    | c :: rest =>
      if c.toNat = 123 then
        match skipWs rest with
        | [] => none
        | d :: rest1 => if d.toNat = 125 then some (.obj [], rest1) else parseMembers fuel rest []
      else if c = '[' then
        match skipWs rest with
        | [] => none
        | d :: rest1 => if d = ']' then some (.arr [], rest1) else parseElements fuel rest []
      else if c.toNat = 34 then
        match lexJsonString rest with
        | some (s, rest1) => some (.str s, rest1)
        | none => none
      else if c = 't' then (dropKeyword "rue".toList rest).map (fun r => (.bool true, r))
      else if c = 'f' then (dropKeyword "alse".toList rest).map (fun r => (.bool false, r))
      else if c = 'n' then (dropKeyword "ull".toList rest).map (fun r => (.null, r))
      else lexJsonNumber (c :: rest)
/-- Elements of an array after its opening bracket, up to the closing bracket. -/
def parseElements : Nat → List Char → List Json → Option (Json × List Char)
  | 0, _, _ => none
  | fuel + 1, cs, acc =>
    match parseValue fuel cs with
    | none => none
    | some (v, rest) =>
      match skipWs rest with
      | [] => none
      | d :: rest1 =>
        if d = ',' then parseElements fuel rest1 (v :: acc)
        else if d = ']' then some (.arr (v :: acc).reverse, rest1)
        else none
/-- Members of an object after its opening brace, up to the closing brace; a repeated key
keeps its first position and takes the last value. -/
def parseMembers : Nat → List Char → List (String × Json) → Option (Json × List Char)
  | 0, _, _ => none
  | fuel + 1, cs, acc =>
    match skipWs cs with
    | [] => none
    | q :: rest =>
      if q.toNat = 34 then
        match lexJsonString rest with
        | none => none
        | some (key, rest1) =>
          match skipWs rest1 with
          | [] => none
          | colon :: rest2 =>
            if colon = ':' then
              match parseValue fuel rest2 with
              | none => none
              | some (v, rest3) =>
                match skipWs rest3 with
                | [] => none
                | d :: rest4 =>
                  if d = ',' then parseMembers fuel rest4 (setProp key v acc)
                  else if d.toNat = 125 then some (.obj (setProp key v acc), rest4)
                  else none
            else none
      else none
end

/-- Browser `JSON.parse` on a string: the value, or a `SyntaxError`. The fuel, above
twice the length of the input, is never used up (`parseValue_fuel_irrelevant`). -/
def jsonParse (text : String) : Except JsError Json :=
  match parseValue (2 * text.toList.length + 1) text.toList with
  | some (v, rest) => if (skipWs rest).isEmpty then .ok v else .error .syntaxError
  | none => .error .syntaxError

/-! ## `ToString` -/

/-- Conversion `Number::toString` of the decimal `m * 10 ^ e`: plain digits when the
decimal point falls within 21 places, a leading `0.` down to seven places, exponent form
otherwise. -/
def numberToString (m : Int) (e : Int) : String :=
  if m = 0 then "0"
  else
    let all := Nat.toDigits 10 m.natAbs
    let trailing := (all.reverse.takeWhile (fun c => c = '0')).length
    let ds := all.take (all.length - trailing)
    let k : Int := ds.length
    let n : Int := k + e + trailing
    let sign := if m < 0 then "-" else ""
    let body : String :=
      if k ≤ n ∧ n ≤ 21 then String.mk (ds ++ List.replicate (n - k).toNat '0')
      else if 0 < n ∧ n ≤ 21 then String.mk (ds.take n.toNat ++ '.' :: ds.drop n.toNat)
      else if -6 < n ∧ n ≤ 0 then String.mk ('0' :: '.' :: List.replicate (- n).toNat '0' ++ ds)
      else
        let ex := (if n - 1 < 0 then "-" else "+") ++ toString (n - 1).natAbs
        match ds with
        | [] => ""
        | [d] => String.mk [d] ++ "e" ++ ex
        | d :: more => String.mk (d :: '.' :: more) ++ "e" ++ ex
    sign ++ body

mutual
/-- The string of a JSON value whose conversion to a primitive succeeds. -/
def jsonToString : Json → String
  | .null => "null"
  | .bool b => if b then "true" else "false"
  | .num m e => numberToString m e
  | .str s => s
  | .arr items => joinItems items
  | .obj _ => "[object Object]"
/-- The method `Array.prototype.join` with a comma: `null` elements are empty. -/
def joinItems : List Json → String
  | [] => ""
  | [.null] => ""
  | [x] => jsonToString x
  | .null :: rest => "," ++ joinItems rest
  | x :: rest => jsonToString x ++ "," ++ joinItems rest
end

/-- Conversion `ToString` of a value that may be `undefined`. -/
def toJsString : Option Json → Except JsError String
  | none => .ok "undefined"
  | some v => if canConvert v then .ok (jsonToString v) else .error .typeError

/-- Text of `JSON.stringify` on a string: quoted, with the quote, the backslash and the
control characters escaped. -/
def jsonQuote (s : String) : String :=
  let esc (c : Char) : List Char :=
    if c.toNat = 34 then [Char.ofNat 92, c]
    else if c.toNat = 92 then [c, c]
    else if c.toNat = 8 then [Char.ofNat 92, 'b']
    else if c.toNat = 12 then [Char.ofNat 92, 'f']
    else if c.toNat = 10 then [Char.ofNat 92, 'n']
    else if c.toNat = 13 then [Char.ofNat 92, 'r']
    else if c.toNat = 9 then [Char.ofNat 92, 't']
    else if c.toNat < 32 then
      Char.ofNat 92 :: 'u' :: '0' :: '0' :: (Nat.toDigits 16 (c.toNat / 16) ++ Nat.toDigits 16 (c.toNat % 16))
    else [c]
  String.mk (Char.ofNat 34 :: (s.toList.flatMap esc ++ [Char.ofNat 34]))

/-! ## `localStorage` -/

/-- The key-value store behind `localStorage`: at most the first entry of a key counts. -/
abbrev Storage := List (String × String)

/-- Call `localStorage.getItem(key)`: the value, or `null` as `none`. -/
def getItem (s : Storage) (key : String) : Option String :=
  match s with
  | [] => none
  | (k, v) :: rest => if k = key then some v else getItem rest key

/-- Call `localStorage.removeItem(key)`. -/
def removeItem (s : Storage) (key : String) : Storage :=
  match s with
  | [] => []
  | (k, v) :: rest => if k = key then removeItem rest key else (k, v) :: removeItem rest key

/-- Call `localStorage.setItem(key, value)` with a value already converted to a string. -/
def setItem (s : Storage) (key : String) (value : String) : Storage :=
  (key, value) :: removeItem s key

/-! ## `tokenManager` (auth.js, lines 8-63) -/

/-- Constant `API_BASE_URL`. -/
def API_BASE_URL : String := "http://localhost:5000/api"

/-- Storage key of the access token. -/
def accessTokenKey : String := "parkmate_access_token"

/-- Storage key of the refresh token. -/
def refreshTokenKey : String := "parkmate_refresh_token"

/-- Storage key of the cached user profile. -/
def userKey : String := "parkmate_user"

namespace tokenManager

/-- Line 10. -/
def getAccessToken (s : Storage) : Option String := getItem s accessTokenKey

/-- Line 15. -/
def getRefreshToken (s : Storage) : Option String := getItem s refreshTokenKey

/-- Line 20: the access token is always written (converted to a string by `setItem`), the
refresh token only when the argument is truthy. The result is the storage afterwards and
the exception, if any, that a conversion to a string raised. -/
def setTokens (s : Storage) (accessToken refreshToken : Option Json) :
    Storage × Option JsError :=
  match toJsString accessToken with
  | .error e => (s, some e)
  | .ok access =>
    let s1 := setItem s accessTokenKey access
    if truthyVal refreshToken then
      match toJsString refreshToken with
      | .error e => (s1, some e)
      | .ok refresh => (setItem s1 refreshTokenKey refresh, none)
    else (s1, none)

/-- Line 28. -/
def clearTokens (s : Storage) : Storage :=
  removeItem (removeItem (removeItem s accessTokenKey) refreshTokenKey) userKey

/-- The body of the `try` block of `isAuthenticated` (lines 40-41). -/
def decodeAndCompare (token : String) (now : Nat) : Except JsError Bool :=
  match atob (stringOrUndefined (secondSegment token)) with
  | .error e => .error e
  | .ok decoded =>
    match jsonParse decoded with
    | .error e => .error e
    | .ok payload =>
      match getProp payload "exp" with
      | .error e => .error e
      | .ok exp => gtSeconds exp now

/-- Line 35; `now` is the value of `Date.now()`. A missing or empty token is falsy; any
exception of the `try` block is caught and gives `false`. -/
def isAuthenticated (s : Storage) (now : Nat) : Except JsError Bool :=
  match getAccessToken s with
  | none => .ok false
  | some token =>
    if token = "" then .ok false
    else
      match decodeAndCompare token now with
      | .ok b => .ok b
      | .error _ => .ok false

/-- Line 54: a missing or empty string is falsy and gives `null`; otherwise the result of
`JSON.parse`, whose `SyntaxError` is not caught. -/
def getUser (s : Storage) : Except JsError Json :=
  match getItem s userKey with
  | none => .ok .null
  | some userStr => if userStr = "" then .ok .null else jsonParse userStr

/-- Line 48: the value of `user && user.is_admin === true`, which is `user` itself when
`user` is falsy. -/
def isAdmin (s : Storage) : Except JsError Json :=
  match getUser s with
  | .error e => .error e
  | .ok user =>
    if truthy user then
      match getProp user "is_admin" with
      | .error e => .error e
      | .ok flag => .ok (.bool (strictEqTrue flag))
    else .ok user

end tokenManager

/-! ## `fetch` and the state of the page -/

/-- A call `fetch(url, init)`: the headers of `init` and its other fields (`method`,
`body`, ...) as they are at the time of the call. -/
structure Request where
  url : String
  headers : List (String × String)
  init : List (String × String)
  deriving DecidableEq, Repr

/-- A response: its status and what `response.json()` resolves to (`none` when the body
is not JSON and the promise rejects). -/
structure Response where
  status : Nat
  json : Option Json

/-- Getter `response.ok`: the status is in the range 200-299. -/
def Response.ok (r : Response) : Bool := 200 ≤ r.status && r.status ≤ 299

/-- What the promise returned by `fetch` settles to. -/
inductive FetchResult
  | rejected
  | response (r : Response)

/-- The remote side: the settlement of each call, given the calls made before it. -/
abbrev Network := List Request → Request → FetchResult

/-- The functions of auth.js that call `fetch`: `apiRequest` (lines 86 and 94), `logout`
(line 170) and `refreshAccessToken` (line 187). -/
inductive CallSite
  | apiRequest
  | logout
  | refreshAccessToken
  deriving DecidableEq, Repr

/-- Browser state that the request wrapper touches: storage, the calls of `fetch` made so
far with, in `sites`, the function that made each of them, and the last assignment to
`window.location.href`. -/
structure World where
  storage : Storage
  fetches : List Request
  sites : List CallSite
  location : Option String

/-- One call of `fetch`: it is recorded, and the network decides its settlement. -/
def doFetch (net : Network) (w : World) (site : CallSite) (req : Request) :
    FetchResult × World :=
  (net w.fetches req, { w with fetches := w.fetches ++ [req], sites := w.sites ++ [site] })

/-- Template-literal rendering of a stored token: `null` prints as the word. -/
def tokenText : Option String → String
  | none => "null"
  | some t => t

/-! ## Authentication functions (auth.js, lines 168-206) -/

/-- The request of `logout` (lines 170-176). -/
def logoutRequest (s : Storage) : Request :=
  { url := API_BASE_URL ++ "/logout"
    headers := [("Content-Type", "application/json"),
      ("Authorization", "Bearer " ++ tokenText (tokenManager.getAccessToken s))]
    init := [("method", "POST")] }

/-- Line 168: the logout call is sent and not awaited, then storage is cleared. -/
def logout (net : Network) (w : World) : World :=
  let w1 := (doFetch net w .logout (logoutRequest w.storage)).2
  { w1 with storage := tokenManager.clearTokens w1.storage }

/-- The request of `refreshAccessToken` (lines 187-193). -/
def refreshRequest (refreshToken : String) : Request :=
  { url := API_BASE_URL ++ "/refresh-token"
    headers := [("Content-Type", "application/json")]
    init := [("method", "POST"),
      ("body", "\x7b\"refresh_token\":" ++ jsonQuote refreshToken ++ "\x7d")] }

/-- Line 182: the boolean the promise resolves to, and the state afterwards. -/
def refreshAccessToken (net : Network) (w : World) : Bool × World :=
  match tokenManager.getRefreshToken w.storage with
  | none => (false, w)
  | some refreshToken =>
    if refreshToken = "" then (false, w)
    else
      match doFetch net w .refreshAccessToken (refreshRequest refreshToken) with
      | (.rejected, w1) => (false, w1)
      | (.response resp, w1) =>
        if !resp.ok then (false, w1)
        else
          match resp.json with
          | none => (false, w1)
          | some data =>
            match getProp data "access_token" with
            | .error _ => (false, w1)
            | .ok accessToken =>
              match tokenManager.setTokens w1.storage accessToken none with
              | (s2, none) => (true, { w1 with storage := s2 })
              | (s2, some _) => (false, { w1 with storage := s2 })

/-! ## `apiRequest` (auth.js, lines 68-113) -/

/-- The `options` argument: its own `headers` property when it has one (a plain object of
strings) and its other properties. -/
structure Options where
  headers : Option (List (String × String))
  rest : List (String × String)

/-- What one call leaves behind: the settlement of the returned promise, the state of
the page, and the content of the caller's `options.headers` object after the call. -/
structure Outcome where
  result : Except JsError Json
  world : World
  callerHeaders : Option (List (String × String))

/-- The object literal written for `headers` at lines 73-76. -/
def mergedHeaders (options : Options) : List (String × String) :=
  spreadInto [("Content-Type", "application/json")] (options.headers.getD [])

/-- Property `config.headers` after lines 72-78: the spread of `options` comes after the
`headers` entry, so a `headers` property of `options` replaces the merged object by the
caller's own object. -/
def configHeaders (options : Options) : List (String × String) :=
  match options.headers with
  | some own => own
  | none => mergedHeaders options

/-- Lines 103-108 for the response that is kept: outside the success range an `Error` is
thrown whose message is the `error` field of the body when that is truthy (converted to a
string) and the status otherwise; a body that is not JSON counts as an empty object. -/
def settle (resp : Response) : Except JsError Json :=
  if !resp.ok then
    match getProp (resp.json.getD (.obj [])) "error" with
    | .error e => .error e
    | .ok message =>
      if truthyVal message then
        match toJsString message with
        | .error e => .error e
        | .ok text => .error (.error text)
      else .error (.error ("HTTP error! status: " ++ toString resp.status))
  else
    match resp.json with
    | none => .error .syntaxError
    | some v => .ok v

/-- Line 68, the wrapper. `config.headers` is the caller's object when `options` has a
`headers` property, so what is written to it (lines 82 and 93) is seen by the caller. An
exception inside the `try` block is logged and thrown again. -/
def apiRequest (net : Network) (w : World) (endpoint : String) (options : Options) : Outcome :=
  let url := API_BASE_URL ++ endpoint
  let token := tokenManager.getAccessToken w.storage
  let hasToken : Bool := match token with
    | none => false
    | some t => t != ""
  let headers0 := configHeaders options
  let headers1 :=
    if hasToken then setProp "Authorization" ("Bearer " ++ tokenText token) headers0 else headers0
  let seen (hs : List (String × String)) : Option (List (String × String)) :=
    match options.headers with
    | some _ => some hs
    | none => none
  match doFetch net w .apiRequest { url := url, headers := headers1, init := options.rest } with
  | (.rejected, w1) => { result := .error .fetchRejected, world := w1, callerHeaders := seen headers1 }
  | (.response resp1, w1) =>
    if resp1.status = 401 ∧ hasToken = true then
      match refreshAccessToken net w1 with
      | (true, w2) =>
        let headers2 := setProp "Authorization"
          ("Bearer " ++ tokenText (tokenManager.getAccessToken w2.storage)) headers1
        match doFetch net w2 .apiRequest
            { url := url, headers := headers2, init := options.rest } with
        | (.rejected, w3) =>
          { result := .error .fetchRejected, world := w3, callerHeaders := seen headers2 }
        | (.response resp2, w3) =>
          { result := settle resp2, world := w3, callerHeaders := seen headers2 }
      | (false, w2) =>
        let w3 := logout net w2
        { result := .ok .null, world := { w3 with location := some "/login" },
          callerHeaders := seen headers1 }
    else { result := settle resp1, world := w1, callerHeaders := seen headers1 }

/-! ## Route guards (auth.js, lines 236-275) and the route table (router/index.js) -/

/-- Line 236. Each guard returns the arguments of its calls of `next`, in order (`none`
for a call without argument); `now` is the value of `Date.now()`. -/
def requireAuth (s : Storage) (now : Nat) : Except JsError (List (Option String)) :=
  match tokenManager.isAuthenticated s now with
  | .error e => .error e
  | .ok true => .ok [none]
  | .ok false => .ok [some "/login"]

/-- The condition `isAuthenticated() && isAdmin()` as a boolean. -/
def authenticatedAndAdmin (s : Storage) (now : Nat) : Except JsError Bool :=
  match tokenManager.isAuthenticated s now with
  | .error e => .error e
  | .ok false => .ok false
  | .ok true =>
    match tokenManager.isAdmin s with
    | .error e => .error e
    | .ok v => .ok (truthy v)

/-- Line 244; `now1` and `now2` are the two readings of the clock. -/
def requireAdmin (s : Storage) (now1 now2 : Nat) : Except JsError (List (Option String)) :=
  match authenticatedAndAdmin s now1 with
  | .error e => .error e
  | .ok true => .ok [none]
  | .ok false =>
    match tokenManager.isAuthenticated s now2 with
    | .error e => .error e
    | .ok true => .ok [some "/user-dashboard"]
    | .ok false => .ok [some "/login"]

/-- The condition `isAuthenticated() && !isAdmin()` as a boolean. -/
def authenticatedAndNotAdmin (s : Storage) (now : Nat) : Except JsError Bool :=
  match tokenManager.isAuthenticated s now with
  | .error e => .error e
  | .ok false => .ok false
  | .ok true =>
    match tokenManager.isAdmin s with
    | .error e => .error e
    | .ok v => .ok (!truthy v)

/-- Line 254. -/
def requireUser (s : Storage) (now1 now2 : Nat) : Except JsError (List (Option String)) :=
  match authenticatedAndNotAdmin s now1 with
  | .error e => .error e
  | .ok true => .ok [none]
  | .ok false =>
    match tokenManager.isAuthenticated s now2 with
    | .error e => .error e
    | .ok true => .ok [some "/admin-dashboard"]
    | .ok false => .ok [some "/login"]

/-- Line 264: `user.is_admin` is read without a test of `user` and used for its
truthiness. -/
def redirectIfAuthenticated (s : Storage) (now : Nat) : Except JsError (List (Option String)) :=
  match tokenManager.isAuthenticated s now with
  | .error e => .error e
  | .ok false => .ok [none]
  | .ok true =>
    match tokenManager.getUser s with
    | .error e => .error e
    | .ok user =>
      match getProp user "is_admin" with
      | .error e => .error e
      | .ok flag =>
        if truthyVal flag then .ok [some "/admin-dashboard"] else .ok [some "/user-dashboard"]

/-- Paths and names of the routes registered in router/index.js, lines 8-43. -/
def routes : List (String × String) :=
  [("/", "home"), ("/login", "login"), ("/register", "register"), ("/admin", "admin"),
    ("/dashboard", "dashboard")]

/-- The registered paths. -/
def routePaths : List String := routes.map Prod.fst

/-! ## Requests named in the statements -/

/-- The request that the wrapper sends for `endpoint` when the bearer token is `token`. -/
def wrapperRequest (endpoint : String) (options : Options) (token : String) : Request :=
  { url := API_BASE_URL ++ endpoint
    headers := setProp "Authorization" ("Bearer " ++ token) (configHeaders options)
    init := options.rest }

/-- The calls of `fetch` made between the state `before` and the state `after`, in
order. -/
def fetchesSince (before after : World) : List Request :=
  after.fetches.drop before.fetches.length

/-- The number of calls in a list that go to the given URL. -/
def countUrl (url : String) (reqs : List Request) : Nat :=
  reqs.countP (fun q => q.url = url)

/-- The refresh request that a storage state gives rise to: none without a (non-empty)
refresh token. -/
def refreshAttempt (s : Storage) : List Request :=
  match tokenManager.getRefreshToken s with
  | none => []
  | some r => if r = "" then [] else [refreshRequest r]

/-- The standard-alphabet spelling of a base64url string (RFC 4648, section 5): `+` for
`-` and `/` for `_`. -/
def fromBase64Url (s : String) : String :=
  String.mk (s.toList.map (fun c => if c = '-' then '+' else if c = '_' then '/' else c))

/-! ## Sample states and networks -/

/-- A reading of the clock: 2023-11-14T22:13:20Z in milliseconds. -/
def sampleNow : Nat := 1700000000000

/-- A token whose payload is the object with the single field `exp` = 9999999999. -/
def liveToken : String := "eyJhbGciOiJIUzI1NiJ9.eyJleHAiOjk5OTk5OTk5OTl9.c2ln"

/-- A token whose payload is the object with the single field `exp` = 1600000000. -/
def staleToken : String := "eyJhbGciOiJIUzI1NiJ9.eyJleHAiOjE2MDAwMDAwMDB9.c2ln"

/-- A token whose payload, the object with `exp` = 9999999999 and `name` = `???`, has an
underscore in its base64url spelling. -/
def underscoreToken : String :=
  "eyJhbGciOiJIUzI1NiJ9.eyJleHAiOjk5OTk5OTk5OTksIm5hbWUiOiI_Pz8ifQ.c2ln"

/-- A signed-in session with both tokens and no cached user. -/
def signedInStorage : Storage :=
  [(accessTokenKey, "old-access"), (refreshTokenKey, "refresh-1")]

/-- A session with an access token only. -/
def accessOnlyStorage : Storage := [(accessTokenKey, "old-access")]

/-- A page with the signed-in session and no network call made yet. -/
def signedInWorld : World :=
  { storage := signedInStorage, fetches := [], sites := [], location := none }

/-- A page with an access token only. -/
def accessOnlyWorld : World :=
  { storage := accessOnlyStorage, fetches := [], sites := [], location := none }

/-- A server that answers 401 to the first call, then accepts the refresh with the new
token `new-access`, then answers 401 again. -/
def expiredThenRefreshed : Network := fun history _ =>
  match history.length with
  | 0 => .response ⟨401, none⟩
  | 1 => .response ⟨200, some (.obj [("access_token", .str "new-access")])⟩
  | _ => .response ⟨401, some (.obj [("error", .str "Token has expired")])⟩

/-- A server that answers 401 to everything. -/
def alwaysUnauthorized : Network := fun _ _ =>
  .response ⟨401, some (.obj [("error", .str "Invalid token")])⟩

/-- A server that answers 200 with an empty object to everything. -/
def alwaysOk : Network := fun _ _ => .response ⟨200, some (.obj [])⟩

/-- A server that accepts a refresh with the new token `new-access`. -/
def refreshOk : Network := fun _ _ =>
  .response ⟨200, some (.obj [("access_token", .str "new-access")])⟩

/-- The options of `authAPI.refreshToken` (api.js, lines 65-70) for the refresh token
`stale`. -/
def refreshCallOptions : Options :=
  { headers := none
    rest := [("method", "POST"), ("body", "\x7b\"refresh_token\":\"stale\"\x7d")] }

/-- The options of `authAPI.logout` (api.js, lines 59-63). -/
def logoutCallOptions : Options := { headers := none, rest := [("method", "POST")] }

/-- Options without a `headers` property. -/
def plainOptions : Options := { headers := none, rest := [("method", "GET")] }

/-- Options that carry their own `headers` object. -/
def optionsWithHeaders : Options :=
  { headers := some [("X-Request-Id", "42")], rest := [("method", "GET")] }

/-- An authenticated session of a user whose cached profile is not admin. -/
def userSession : Storage :=
  [(accessTokenKey, liveToken), (userKey, "\x7b\"id\":2,\"is_admin\":false\x7d")]

/-- An authenticated session of an admin. -/
def adminSession : Storage :=
  [(accessTokenKey, liveToken), (userKey, "\x7b\"id\":1,\"is_admin\":true\x7d")]

/-- An authenticated session without a cached profile. -/
def tokenOnlySession : Storage := [(accessTokenKey, liveToken)]

/-- An authenticated session whose cached profile has the number 1 as `is_admin`. -/
def numericFlagSession : Storage :=
  [(accessTokenKey, liveToken), (userKey, "\x7b\"id\":3,\"is_admin\":1\x7d")]

/-- Storage that holds only the given access token. -/
def withAccessToken (token : String) : Storage := [(accessTokenKey, token)]

/-- Storage that holds only the given text under the user key. -/
def withUser (text : String) : Storage := [(userKey, text)]

/-! ## The parser does not run out of fuel -/

theorem dropWhile_length_le (p : Char → Bool) (cs : List Char) :
    (cs.dropWhile p).length ≤ cs.length :=
  (List.dropWhile_sublist p).length_le

/-- Skipping white space does not lengthen the input. -/
theorem skipWs_length_le (cs : List Char) : (skipWs cs).length ≤ cs.length :=
  dropWhile_length_le _ _

/-- What follows the first character after white space is shorter than the input. -/
theorem skipWs_cons_length (cs rest : List Char) (c : Char) (h : skipWs cs = c :: rest) :
    rest.length < cs.length := by
  have := skipWs_length_le cs
  rw [h] at this
  simpa using this

/-- A string literal that is read leaves a shorter input. -/
theorem lexString_length (cs : List Char) : ∀ (st : StrState) (acc : List Nat)
    (u : List Nat) (rest : List Char),
    lexString st acc cs = some (u, rest) → rest.length < cs.length := by
  induction cs with
  | nil => intro st acc u rest h; simp [lexString] at h
  | cons c cs ih =>
    intro st acc u rest h
    cases st with
    | plain =>
      simp only [lexString] at h
      split at h
      · simp at h; rw [← h.2]; simp
      · split at h
        · have := ih _ _ _ _ h; simp; omega
        · split at h
          · simp at h
          · have := ih _ _ _ _ h; simp; omega
    | escape =>
      simp only [lexString] at h
      split at h
      · have := ih _ _ _ _ h; simp; omega
      · split at h
        · have := ih _ _ _ _ h; simp; omega
        · simp at h
    | hex ds =>
      simp only [lexString] at h
      split at h
      · simp at h
      · split at h
        · have := ih _ _ _ _ h; simp; omega
        · have := ih _ _ _ _ h; simp; omega

/-- A string literal that is read leaves a shorter input. -/
theorem lexJsonString_length (cs : List Char) (s : String) (rest : List Char)
    (h : lexJsonString cs = some (s, rest)) : rest.length < cs.length := by
  unfold lexJsonString at h
  split at h
  · next units r hl =>
    simp at h
    rw [← h.2]
    exact lexString_length _ _ _ _ _ hl
  · simp at h

/-- A keyword that is read does not lengthen the input. -/
theorem dropKeyword_length (ks : List Char) : ∀ (cs rest : List Char),
    dropKeyword ks cs = some rest → rest.length ≤ cs.length := by
  induction ks with
  | nil => intro cs rest h; simp [dropKeyword] at h; rw [h]
  | cons k ks ih =>
    intro cs rest h
    cases cs with
    | nil => simp [dropKeyword] at h
    | cons c cs =>
      simp only [dropKeyword] at h
      split at h
      · have := ih _ _ h; simp; omega
      · simp at h

/-- An exponent part that is read does not lengthen the input. -/
theorem lexExponent_length (cs : List Char) (e : Int) (rest : List Char)
    (h : lexExponent cs = some (e, rest)) : rest.length ≤ cs.length := by
  unfold lexExponent at h
  split at h
  · simp at h; rw [← h.2]
  · next c r =>
    by_cases hc : c = 'e' ∨ c = 'E'
    · rw [if_pos hc] at h
      have h2 : (if r.head? = some '-' ∨ r.head? = some '+' then r.tail else r).length
          ≤ r.length := by
        split <;> simp
      generalize (if r.head? = some '-' ∨ r.head? = some '+' then r.tail else r) = rest1
        at h h2
      by_cases hd : (rest1.takeWhile isDigit).isEmpty = true
      · rw [if_pos hd] at h; simp at h
      · rw [if_neg hd] at h
        simp only [Option.some.injEq, Prod.mk.injEq] at h
        rw [← h.2]
        have h1 := dropWhile_length_le isDigit rest1
        simp; omega
    · rw [if_neg hc] at h
      simp only [Option.some.injEq, Prod.mk.injEq] at h
      rw [← h.2]

/-- A fraction part that is read does not lengthen the input. -/
theorem lexFraction_length (cs : List Char) : (lexFraction cs).2.length ≤ cs.length := by
  unfold lexFraction
  split
  · simp
  · next c r =>
    split
    · have := dropWhile_length_le isDigit r
      simp; omega
    · simp

/-- An integer part that is read leaves a shorter input. -/
theorem lexInteger_length (cs ids rest : List Char) (h : lexInteger cs = some (ids, rest)) :
    rest.length < cs.length := by
  unfold lexInteger at h
  split at h
  · simp at h
  · next c r =>
    split at h
    · simp at h; rw [← h.2]; simp
    · split at h
      · simp at h
        rw [← h.2]
        have := dropWhile_length_le isDigit r
        simp; omega
      · simp at h

/-- A number that is read leaves a shorter input. -/
theorem lexJsonNumber_length (cs : List Char) (v : Json) (rest : List Char)
    (h : lexJsonNumber cs = some (v, rest)) : rest.length < cs.length := by
  unfold lexJsonNumber at h
  simp only at h
  split at h
  · simp at h
  · next ids rest1 hi =>
    have h1 := lexInteger_length _ _ _ hi
    have h0 : (if cs.head? = some '-' then cs.tail else cs).length ≤ cs.length := by
      split <;> simp
    have h2 := lexFraction_length rest1
    split at h
    · simp at h
    · next frac rest2 _ hf =>
      rw [hf] at h2
      simp only at h2
      split at h
      · simp at h
      · next e rest3 he =>
        have h3 := lexExponent_length _ _ _ he
        simp only [Option.some.injEq, Prod.mk.injEq] at h
        rw [← h.2]
        omega

/-- A value, a list of elements or a list of members that is read leaves a shorter
input, whatever the fuel. -/
theorem parse_length (n : Nat) :
    (∀ cs v rest, parseValue n cs = some (v, rest) → rest.length < cs.length) ∧
    (∀ cs acc v rest, parseElements n cs acc = some (v, rest) → rest.length < cs.length) ∧
    (∀ cs acc v rest, parseMembers n cs acc = some (v, rest) → rest.length < cs.length) := by
  induction n with
  | zero => simp [parseValue, parseElements, parseMembers]
  | succ n ih =>
    obtain ⟨ihV, ihE, ihM⟩ := ih
    refine ⟨?_, ?_, ?_⟩
    · intro cs v rest h
      simp only [parseValue] at h
      cases hs : skipWs cs with
      | nil => simp [hs] at h
      | cons c r =>
        have hlen := skipWs_cons_length _ _ _ hs
        simp only [hs] at h
        by_cases h1 : c.toNat = 123
        · rw [if_pos h1] at h
          cases hs2 : skipWs r with
          | nil => simp [hs2] at h
          | cons d r1 =>
            have hlen2 := skipWs_cons_length _ _ _ hs2
            simp only [hs2] at h
            by_cases h2 : d.toNat = 125
            · rw [if_pos h2] at h
              simp only [Option.some.injEq, Prod.mk.injEq] at h
              rw [← h.2]; omega
            · rw [if_neg h2] at h
              have := ihM _ _ _ _ h
              omega
        · rw [if_neg h1] at h
          by_cases h3 : c = '['
          · rw [if_pos h3] at h
            cases hs2 : skipWs r with
            | nil => simp [hs2] at h
            | cons d r1 =>
              have hlen2 := skipWs_cons_length _ _ _ hs2
              simp only [hs2] at h
              by_cases h2 : d = ']'
              · rw [if_pos h2] at h
                simp only [Option.some.injEq, Prod.mk.injEq] at h
                rw [← h.2]; omega
              · rw [if_neg h2] at h
                have := ihE _ _ _ _ h
                omega
          · rw [if_neg h3] at h
            by_cases h4 : c.toNat = 34
            · rw [if_pos h4] at h
              cases hl : lexJsonString r with
              | none => simp [hl] at h
              | some p =>
                obtain ⟨s, r1⟩ := p
                have := lexJsonString_length _ _ _ hl
                simp only [hl, Option.some.injEq, Prod.mk.injEq] at h
                rw [← h.2]; omega
            · rw [if_neg h4] at h
              by_cases h5 : c = 't'
              · rw [if_pos h5] at h
                cases hk : dropKeyword "rue".toList r with
                | none => rw [hk] at h; simp at h
                | some r1 =>
                  have := dropKeyword_length _ _ _ hk
                  rw [hk] at h
                  simp only [Option.map_some', Option.some.injEq, Prod.mk.injEq] at h
                  rw [← h.2]; omega
              · rw [if_neg h5] at h
                by_cases h6 : c = 'f'
                · rw [if_pos h6] at h
                  cases hk : dropKeyword "alse".toList r with
                  | none => rw [hk] at h; simp at h
                  | some r1 =>
                    have := dropKeyword_length _ _ _ hk
                    rw [hk] at h
                    simp only [Option.map_some', Option.some.injEq, Prod.mk.injEq] at h
                    rw [← h.2]; omega
                · rw [if_neg h6] at h
                  by_cases h7 : c = 'n'
                  · rw [if_pos h7] at h
                    cases hk : dropKeyword "ull".toList r with
                    | none => rw [hk] at h; simp at h
                    | some r1 =>
                      have := dropKeyword_length _ _ _ hk
                      rw [hk] at h
                      simp only [Option.map_some', Option.some.injEq, Prod.mk.injEq] at h
                      rw [← h.2]; omega
                  · rw [if_neg h7] at h
                    have := lexJsonNumber_length _ _ _ h
                    simp only [List.length_cons] at this
                    omega
    · intro cs acc v rest h
      simp only [parseElements] at h
      cases hv : parseValue n cs with
      | none => simp [hv] at h
      | some p =>
        obtain ⟨v1, r⟩ := p
        have hlen := ihV _ _ _ hv
        simp only [hv] at h
        cases hs : skipWs r with
        | nil => simp [hs] at h
        | cons d r1 =>
          have hlen2 := skipWs_cons_length _ _ _ hs
          simp only [hs] at h
          by_cases h1 : d = ','
          · rw [if_pos h1] at h
            have := ihE _ _ _ _ h
            omega
          · rw [if_neg h1] at h
            by_cases h2 : d = ']'
            · rw [if_pos h2] at h
              simp only [Option.some.injEq, Prod.mk.injEq] at h
              rw [← h.2]; omega
            · rw [if_neg h2] at h
              simp at h
    · intro cs acc v rest h
      simp only [parseMembers] at h
      cases hs : skipWs cs with
      | nil => simp [hs] at h
      | cons q r =>
        have hlen := skipWs_cons_length _ _ _ hs
        simp only [hs] at h
        by_cases h1 : q.toNat = 34
        · rw [if_pos h1] at h
          cases hl : lexJsonString r with
          | none => simp [hl] at h
          | some p =>
            obtain ⟨key, r1⟩ := p
            have hlen1 := lexJsonString_length _ _ _ hl
            simp only [hl] at h
            cases hs2 : skipWs r1 with
            | nil => simp [hs2] at h
            | cons colon r2 =>
              have hlen2 := skipWs_cons_length _ _ _ hs2
              simp only [hs2] at h
              by_cases h2 : colon = ':'
              · rw [if_pos h2] at h
                cases hv : parseValue n r2 with
                | none => simp [hv] at h
                | some p =>
                  obtain ⟨v1, r3⟩ := p
                  have hlen3 := ihV _ _ _ hv
                  simp only [hv] at h
                  cases hs4 : skipWs r3 with
                  | nil => simp [hs4] at h
                  | cons d r4 =>
                    have hlen4 := skipWs_cons_length _ _ _ hs4
                    simp only [hs4] at h
                    by_cases h3 : d = ','
                    · rw [if_pos h3] at h
                      have := ihM _ _ _ _ h
                      omega
                    · rw [if_neg h3] at h
                      by_cases h4 : d.toNat = 125
                      · rw [if_pos h4] at h
                        simp only [Option.some.injEq, Prod.mk.injEq] at h
                        rw [← h.2]; omega
                      · rw [if_neg h4] at h
                        simp at h
              · rw [if_neg h2] at h
                simp at h
        · rw [if_neg h1] at h
          simp at h

/-- Above twice the length of the input (plus one inside an array or object), the fuel has
no influence on the result. -/
theorem parse_fuel (n : Nat) :
    (∀ cs m, 2 * cs.length < n → n ≤ m → parseValue m cs = parseValue n cs) ∧
    (∀ cs acc m, 2 * cs.length + 1 < n → n ≤ m →
      parseElements m cs acc = parseElements n cs acc) ∧
    (∀ cs acc m, 2 * cs.length + 1 < n → n ≤ m →
      parseMembers m cs acc = parseMembers n cs acc) := by
  induction n with
  | zero => simp
  | succ n ih =>
    obtain ⟨ihV, ihE, ihM⟩ := ih
    refine ⟨?_, ?_, ?_⟩
    · intro cs m hlen hm
      obtain ⟨k, rfl⟩ : ∃ k, m = k + 1 := ⟨m - 1, by omega⟩
      simp only [parseValue]
      cases hs : skipWs cs with
      | nil => rfl
      | cons c r =>
        have hr := skipWs_cons_length _ _ _ hs
        simp only []
        by_cases h1 : c.toNat = 123
        · rw [if_pos h1, if_pos h1]
          cases hs2 : skipWs r with
          | nil => rfl
          | cons d r1 =>
            simp only []
            by_cases h2 : d.toNat = 125
            · rw [if_pos h2, if_pos h2]
            · rw [if_neg h2, if_neg h2]
              exact ihM _ _ _ (by omega) (by omega)
        · rw [if_neg h1, if_neg h1]
          by_cases h3 : c = '['
          · rw [if_pos h3, if_pos h3]
            cases hs2 : skipWs r with
            | nil => rfl
            | cons d r1 =>
              simp only []
              by_cases h2 : d = ']'
              · rw [if_pos h2, if_pos h2]
              · rw [if_neg h2, if_neg h2]
                exact ihE _ _ _ (by omega) (by omega)
          · rw [if_neg h3, if_neg h3]
    · intro cs acc m hlen hm
      obtain ⟨k, rfl⟩ : ∃ k, m = k + 1 := ⟨m - 1, by omega⟩
      simp only [parseElements]
      rw [ihV cs k (by omega) (by omega)]
      cases hv : parseValue n cs with
      | none => rfl
      | some p =>
        obtain ⟨v1, r⟩ := p
        have hr := (parse_length n).1 _ _ _ hv
        simp only []
        cases hs : skipWs r with
        | nil => rfl
        | cons d r1 =>
          have hr1 := skipWs_cons_length _ _ _ hs
          simp only []
          by_cases h1 : d = ','
          · rw [if_pos h1, if_pos h1]
            exact ihE _ _ _ (by omega) (by omega)
          · rw [if_neg h1, if_neg h1]
    · intro cs acc m hlen hm
      obtain ⟨k, rfl⟩ : ∃ k, m = k + 1 := ⟨m - 1, by omega⟩
      simp only [parseMembers]
      cases hs : skipWs cs with
      | nil => rfl
      | cons q r =>
        have hr := skipWs_cons_length _ _ _ hs
        simp only []
        by_cases h1 : q.toNat = 34
        · rw [if_pos h1, if_pos h1]
          cases hl : lexJsonString r with
          | none => rfl
          | some p =>
            obtain ⟨key, r1⟩ := p
            have hr1 := lexJsonString_length _ _ _ hl
            simp only []
            cases hs2 : skipWs r1 with
            | nil => rfl
            | cons colon r2 =>
              have hr2 := skipWs_cons_length _ _ _ hs2
              simp only []
              by_cases h2 : colon = ':'
              · rw [if_pos h2, if_pos h2]
                rw [ihV r2 k (by omega) (by omega)]
                cases hv : parseValue n r2 with
                | none => rfl
                | some p =>
                  obtain ⟨v1, r3⟩ := p
                  have hr3 := (parse_length n).1 _ _ _ hv
                  simp only []
                  cases hs4 : skipWs r3 with
                  | nil => rfl
                  | cons d r4 =>
                    have hr4 := skipWs_cons_length _ _ _ hs4
                    simp only []
                    by_cases h3 : d = ','
                    · rw [if_pos h3, if_pos h3]
                      exact ihM _ _ _ (by omega) (by omega)
                    · rw [if_neg h3, if_neg h3]
              · rw [if_neg h2, if_neg h2]
        · rw [if_neg h1, if_neg h1]

/-- More fuel than twice the length of the input changes nothing: the parser never stops
for lack of fuel. -/
theorem parseValue_fuel_irrelevant (cs : List Char) (m : Nat) (h : 2 * cs.length + 1 ≤ m) :
    parseValue m cs = parseValue (2 * cs.length + 1) cs :=
  (parse_fuel (2 * cs.length + 1)).1 cs m (by omega) h

/-! ## Storage and property lemmas -/


theorem getItem_removeItem_self (s : Storage) (k : String) :
    getItem (removeItem s k) k = none := by
  induction s with
  | nil => rfl
  | cons kv rest ih =>
    obtain ⟨k0, v0⟩ := kv
    by_cases h : k0 = k
    · simpa [removeItem, h] using ih
    · simpa [removeItem, h, getItem] using ih

/-- Removing a key leaves the other keys as they were. -/
theorem getItem_removeItem_ne (s : Storage) (k k1 : String) (hne : k1 ≠ k) :
    getItem (removeItem s k1) k = getItem s k := by
  induction s with
  | nil => rfl
  | cons kv rest ih =>
    obtain ⟨k0, v0⟩ := kv
    by_cases h : k0 = k1
    · subst h
      simpa [removeItem, getItem, hne] using ih
    · by_cases h2 : k0 = k
      · subst h2
        simp [removeItem, h, getItem]
      · simpa [removeItem, h, getItem, h2] using ih

/-- A written key holds the written value. -/
theorem getItem_setItem_self (s : Storage) (k v : String) :
    getItem (setItem s k v) k = some v := by
  simp [setItem, getItem]

/-- Writing a key leaves the other keys as they were. -/
theorem getItem_setItem_ne (s : Storage) (k k1 v : String) (hne : k1 ≠ k) :
    getItem (setItem s k1 v) k = getItem s k := by
  simp [setItem, getItem, hne, getItem_removeItem_ne s k k1 hne]

/-- A written property holds the written value. -/
theorem lookupProp_setProp_self {α : Type} (k : String) (v : α) (hs : List (String × α)) :
    lookupProp k (setProp k v hs) = some v := by
  induction hs with
  | nil => simp [setProp, lookupProp]
  | cons kv rest ih =>
    obtain ⟨k0, v0⟩ := kv
    by_cases h : k0 = k
    · simp [setProp, lookupProp, h]
    · simp [setProp, lookupProp, h, ih]

/-- After `clearTokens` the access token is absent. -/
theorem clearTokens_access (s : Storage) :
    getItem (tokenManager.clearTokens s) accessTokenKey = none := by
  unfold tokenManager.clearTokens
  rw [getItem_removeItem_ne _ _ _ (by decide), getItem_removeItem_ne _ _ _ (by decide),
    getItem_removeItem_self]

/-- After `clearTokens` the refresh token is absent. -/
theorem clearTokens_refresh (s : Storage) :
    getItem (tokenManager.clearTokens s) refreshTokenKey = none := by
  unfold tokenManager.clearTokens
  rw [getItem_removeItem_ne _ _ _ (by decide), getItem_removeItem_self]

/-- After `clearTokens` the cached user is absent. -/
theorem clearTokens_user (s : Storage) :
    getItem (tokenManager.clearTokens s) userKey = none := by
  unfold tokenManager.clearTokens
  rw [getItem_removeItem_self]

/-! ## The refresh flow -/

/-- What a successful refresh does: one request, `true`, and only the access token is
rewritten. -/
theorem refreshAccessToken_success (net : Network) (w : World) (r a : String) (status : Nat)
    (body : Json) (hr : tokenManager.getRefreshToken w.storage = some r) (hne : r ≠ "")
    (hnet : net w.fetches (refreshRequest r) = .response ⟨status, some body⟩)
    (hlo : 200 ≤ status) (hhi : status ≤ 299)
    (hbody : getProp body "access_token" = .ok (some (.str a))) :
    refreshAccessToken net w =
      (true, { storage := setItem w.storage accessTokenKey a,
               fetches := w.fetches ++ [refreshRequest r],
               sites := w.sites ++ [.refreshAccessToken],
               location := w.location }) := by
  simp [refreshAccessToken, hr, hne, doFetch, hnet, Response.ok, hlo, hhi, hbody,
    tokenManager.setTokens, truthyVal, toJsString, jsonToString, canConvert]

/-- C9: with a stored (non-empty) refresh token `r` and a successful answer of the refresh
endpoint whose body has `access_token` equal to the string `a`, `refreshAccessToken`
resolves to `true`, sends exactly the refresh request, stores `a` as access token and leaves
the refresh token `r`, the cached user and every other key as they were; with no stored
refresh token (absent or empty) it resolves to `false` and the state, list of network calls
included, is unchanged. -/
theorem refreshAccessToken_frame (net : Network) (w : World) :
    (∀ (r a : String) (status : Nat) (body : Json),
      tokenManager.getRefreshToken w.storage = some r → r ≠ "" →
      net w.fetches (refreshRequest r) = .response ⟨status, some body⟩ →
      200 ≤ status → status ≤ 299 →
      getProp body "access_token" = .ok (some (.str a)) →
      (refreshAccessToken net w).1 = true ∧
      tokenManager.getAccessToken (refreshAccessToken net w).2.storage = some a ∧
      tokenManager.getRefreshToken (refreshAccessToken net w).2.storage = some r ∧
      getItem (refreshAccessToken net w).2.storage userKey = getItem w.storage userKey ∧
      (∀ k, k ≠ accessTokenKey →
        getItem (refreshAccessToken net w).2.storage k = getItem w.storage k) ∧
      (refreshAccessToken net w).2.fetches = w.fetches ++ [refreshRequest r] ∧
      (refreshAccessToken net w).2.sites = w.sites ++ [.refreshAccessToken]) ∧
    ((tokenManager.getRefreshToken w.storage = none ∨
        tokenManager.getRefreshToken w.storage = some "") →
      refreshAccessToken net w = (false, w)) := by
  refine ⟨?_, ?_⟩
  · intro r a status body hr hne hnet hlo hhi hbody
    rw [refreshAccessToken_success net w r a status body hr hne hnet hlo hhi hbody]
    refine ⟨rfl, ?_, ?_, ?_, ?_, rfl, rfl⟩
    · exact getItem_setItem_self _ _ _
    · show getItem (setItem w.storage accessTokenKey a) refreshTokenKey = some r
      rw [getItem_setItem_ne _ _ _ _ (by decide)]
      exact hr
    · exact getItem_setItem_ne _ _ _ _ (by decide)
    · intro k hk
      exact getItem_setItem_ne _ _ _ _ (fun h => hk h.symm)
  · intro h
    rcases h with h | h
    · simp [refreshAccessToken, h]
    · simp [refreshAccessToken, h]

/-- Writing a property twice keeps the second value only. -/
theorem setProp_setProp {α : Type} (k : String) (v1 v2 : α) (hs : List (String × α)) :
    setProp k v2 (setProp k v1 hs) = setProp k v2 hs := by
  induction hs with
  | nil => simp [setProp]
  | cons kv rest ih =>
    obtain ⟨k0, v0⟩ := kv
    by_cases h : k0 = k
    · simp [setProp, h]
    · simp [setProp, h, ih]

/-- A call `setTokens(accessToken)` either throws before it writes or writes without
throwing. -/
theorem setTokens_one_argument (s : Storage) (v : Option Json) :
    (∃ e, tokenManager.setTokens s v none = (s, some e)) ∨
      ∃ s2, tokenManager.setTokens s v none = (s2, none) := by
  unfold tokenManager.setTokens
  cases toJsString v with
  | error e => exact Or.inl ⟨e, rfl⟩
  | ok a => exact Or.inr ⟨setItem s accessTokenKey a, by simp [truthyVal]⟩

/-- A refresh that resolves to `false` leaves storage and location as they were and has
sent at most the refresh request. -/
theorem refreshAccessToken_false (net : Network) (w : World)
    (h : (refreshAccessToken net w).1 = false) :
    (refreshAccessToken net w).2 =
      { w with fetches := w.fetches ++ refreshAttempt w.storage,
               sites := w.sites ++ (refreshAttempt w.storage).map (fun _ => .refreshAccessToken) }
      := by
  unfold refreshAccessToken refreshAttempt at *
  cases hr : tokenManager.getRefreshToken w.storage with
  | none => simp
  | some r =>
    by_cases hne : r = ""
    · simp [hne]
    · simp only [hr, hne, if_false, doFetch] at h ⊢
      cases hnet : net w.fetches (refreshRequest r) with
      | rejected => simp
      | response resp =>
        simp only [hnet] at h ⊢
        by_cases hok : resp.ok = true
        · simp only [hok, Bool.not_true, Bool.false_eq_true, if_false] at h ⊢
          cases hj : resp.json with
          | none => simp
          | some data =>
            simp only [hj] at h ⊢
            cases hp : getProp data "access_token" with
            | error e => simp
            | ok v =>
              simp only [hp] at h ⊢
              rcases setTokens_one_argument w.storage v with ⟨e, hs⟩ | ⟨s2, hs⟩
              · simp [hs]
              · simp [hs] at h
        · simp [hok]

/-- The ways of failing that the refresh flow names: no refresh token, a rejected call, a
response outside the success range. -/
theorem refreshAccessToken_fails (net : Network) (w : World)
    (h : (tokenManager.getRefreshToken w.storage = none ∨
          tokenManager.getRefreshToken w.storage = some "") ∨
        ∃ r, tokenManager.getRefreshToken w.storage = some r ∧ r ≠ "" ∧
          (net w.fetches (refreshRequest r) = .rejected ∨
            ∃ resp, net w.fetches (refreshRequest r) = .response resp ∧ resp.ok = false)) :
    (refreshAccessToken net w).1 = false := by
  rcases h with (h | h) | ⟨r, hr, hne, h | ⟨resp, hresp, hok⟩⟩
  · simp [refreshAccessToken, h]
  · simp [refreshAccessToken, h]
  · simp [refreshAccessToken, hr, hne, doFetch, h]
  · simp [refreshAccessToken, hr, hne, doFetch, hresp, hok]

/-! ## The request wrapper -/

/-- Two URLs under the API base are equal only for equal endpoints. -/
theorem url_injective (a b : String) (h : API_BASE_URL ++ a = API_BASE_URL ++ b) : a = b := by
  have h2 := congrArg String.data h
  simp only [String.data_append] at h2
  exact String.ext (List.append_cancel_left h2)

/-- What `apiRequest` does on a 401 followed by a successful refresh: the list of calls,
the stored access token and the settlement of the promise. -/
theorem apiRequest_after_refresh (net : Network) (w : World) (endpoint : String)
    (options : Options) (tok r t : String) (firstBody : Option Json) (status : Nat)
    (body : Json)
    (htok : tokenManager.getAccessToken w.storage = some tok) (htok0 : tok ≠ "")
    (hr : tokenManager.getRefreshToken w.storage = some r) (hr0 : r ≠ "")
    (h401 : net w.fetches (wrapperRequest endpoint options tok) = .response ⟨401, firstBody⟩)
    (href : net (w.fetches ++ [wrapperRequest endpoint options tok]) (refreshRequest r)
      = .response ⟨status, some body⟩)
    (hlo : 200 ≤ status) (hhi : status ≤ 299)
    (hbody : getProp body "access_token" = .ok (some (.str t))) :
    (apiRequest net w endpoint options).world.fetches =
        w.fetches ++ [wrapperRequest endpoint options tok, refreshRequest r,
          wrapperRequest endpoint options t] ∧
      (apiRequest net w endpoint options).result =
        (match net (w.fetches ++ [wrapperRequest endpoint options tok, refreshRequest r])
            (wrapperRequest endpoint options t) with
          | .rejected => .error .fetchRejected
          | .response retry => settle retry) := by
  have hrefresh := refreshAccessToken_success net
    (World.mk w.storage (w.fetches ++ [wrapperRequest endpoint options tok])
      (w.sites ++ [.apiRequest]) w.location)
    r t status body hr hr0 href hlo hhi hbody
  have hstored : tokenManager.getAccessToken (setItem w.storage accessTokenKey t) = some t :=
    getItem_setItem_self _ _ _
  simp only [wrapperRequest] at h401 href hrefresh ⊢
  simp only [apiRequest, htok, tokenText, doFetch, h401, hrefresh, hstored, setProp_setProp,
    bne_iff_ne, ne_eq, htok0, not_false_eq_true, decide_True, if_true, and_self,
    List.append_assoc, List.singleton_append, List.cons_append, List.nil_append]
  cases net (w.fetches ++ [Request.mk (API_BASE_URL ++ endpoint)
      (setProp "Authorization" ("Bearer " ++ tok) (configHeaders options)) options.rest,
      refreshRequest r])
    (Request.mk (API_BASE_URL ++ endpoint)
      (setProp "Authorization" ("Bearer " ++ t) (configHeaders options)) options.rest)
    <;> simp

/-- What `apiRequest` does on a 401 followed by a failed refresh. -/
theorem apiRequest_after_failed_refresh (net : Network) (w : World)
    (endpoint : String) (options : Options) (tok : String) (firstBody : Option Json)
    (htok : tokenManager.getAccessToken w.storage = some tok) (htok0 : tok ≠ "")
    (h401 : net w.fetches (wrapperRequest endpoint options tok) = .response ⟨401, firstBody⟩)
    (hfail : (tokenManager.getRefreshToken w.storage = none ∨
          tokenManager.getRefreshToken w.storage = some "") ∨
        ∃ r, tokenManager.getRefreshToken w.storage = some r ∧ r ≠ "" ∧
          (net (w.fetches ++ [wrapperRequest endpoint options tok]) (refreshRequest r)
              = .rejected ∨
            ∃ resp, net (w.fetches ++ [wrapperRequest endpoint options tok]) (refreshRequest r)
              = .response resp ∧ resp.ok = false)) :
    apiRequest net w endpoint options =
      Outcome.mk (.ok .null)
        (World.mk (tokenManager.clearTokens w.storage)
          (w.fetches ++ wrapperRequest endpoint options tok ::
            (refreshAttempt w.storage ++ [logoutRequest w.storage]))
          (w.sites ++ .apiRequest ::
            ((refreshAttempt w.storage).map (fun _ => .refreshAccessToken) ++ [.logout]))
          (some "/login"))
        (options.headers.map (fun _ => (wrapperRequest endpoint options tok).headers)) := by
  have hf1 := refreshAccessToken_fails net
    (World.mk w.storage (w.fetches ++ [wrapperRequest endpoint options tok])
      (w.sites ++ [.apiRequest]) w.location) hfail
  have hf2 := refreshAccessToken_false net
    (World.mk w.storage (w.fetches ++ [wrapperRequest endpoint options tok])
      (w.sites ++ [.apiRequest]) w.location) hf1
  have hrefresh : refreshAccessToken net
      (World.mk w.storage (w.fetches ++ [wrapperRequest endpoint options tok])
        (w.sites ++ [.apiRequest]) w.location) =
      (false, World.mk w.storage
        (w.fetches ++ [wrapperRequest endpoint options tok] ++ refreshAttempt w.storage)
        (w.sites ++ [.apiRequest]
          ++ (refreshAttempt w.storage).map (fun _ => .refreshAccessToken))
        w.location) := Prod.ext hf1 hf2
  simp only [wrapperRequest] at h401 hrefresh ⊢
  simp only [apiRequest, htok, tokenText, doFetch, h401, hrefresh, logout,
    bne_iff_ne, ne_eq, htok0, not_false_eq_true, decide_True, if_true, and_self,
    List.append_assoc, List.singleton_append, List.cons_append, List.nil_append]
  cases options.headers <;> rfl

/-- C1, as stated, fails when the endpoint is the refresh endpoint itself, as in
`authAPI.refreshToken` (api.js, lines 65-70): with both tokens stored, a first answer 401
and a successful answer to the refresh call, the URL of the refresh endpoint is fetched
three times, not once, and the endpoint three times, not twice. -/
theorem apiRequest_refresh_endpoint_fetched_three_times :
    tokenManager.getAccessToken signedInWorld.storage = some "old-access" ∧
      tokenManager.getRefreshToken signedInWorld.storage = some "refresh-1" ∧
      (∃ j, expiredThenRefreshed signedInWorld.fetches
          (wrapperRequest "/refresh-token" refreshCallOptions "old-access")
        = .response ⟨401, j⟩) ∧
      expiredThenRefreshed
          (signedInWorld.fetches
            ++ [wrapperRequest "/refresh-token" refreshCallOptions "old-access"])
          (refreshRequest "refresh-1")
        = .response ⟨200, some (.obj [("access_token", .str "new-access")])⟩ ∧
      (fetchesSince signedInWorld
          (apiRequest expiredThenRefreshed signedInWorld "/refresh-token"
            refreshCallOptions).world).map (fun q => q.url) =
        ["http://localhost:5000/api/refresh-token", "http://localhost:5000/api/refresh-token",
          "http://localhost:5000/api/refresh-token"] ∧
      countUrl "http://localhost:5000/api/refresh-token"
        (fetchesSince signedInWorld
          (apiRequest expiredThenRefreshed signedInWorld "/refresh-token"
            refreshCallOptions).world) = 3 :=
  ⟨rfl, rfl, ⟨none, rfl⟩, rfl, rfl, rfl⟩

/-- C1, amended: for an endpoint other than `/refresh-token`, with a stored access token
`tok` and a stored refresh token `r` (both non-empty), if the first answer has status 401
and the refresh endpoint answers successfully with the new access token `t`, then
`apiRequest` makes exactly three calls of `fetch`: the request of the endpoint with
`Bearer tok`, one `POST` to the URL of `/refresh-token` whose body carries `r`, and the
request of the endpoint once more, with the `Authorization` header `Bearer t`. So the URL
of the refresh endpoint is fetched exactly once and the URL of the endpoint exactly twice.
The promise settles from the answer to the retry alone: a 401 there rejects it and starts
no second refresh. -/
theorem apiRequest_refresh_then_retry_once (net : Network) (w : World) (endpoint : String)
    (options : Options) (tok r t : String) (firstBody : Option Json) (status : Nat)
    (body : Json) (hend : endpoint ≠ "/refresh-token")
    (htok : tokenManager.getAccessToken w.storage = some tok) (htok0 : tok ≠ "")
    (hr : tokenManager.getRefreshToken w.storage = some r) (hr0 : r ≠ "")
    (h401 : net w.fetches (wrapperRequest endpoint options tok) = .response ⟨401, firstBody⟩)
    (href : net (w.fetches ++ [wrapperRequest endpoint options tok]) (refreshRequest r)
      = .response ⟨status, some body⟩)
    (hlo : 200 ≤ status) (hhi : status ≤ 299)
    (hbody : getProp body "access_token" = .ok (some (.str t))) :
    fetchesSince w (apiRequest net w endpoint options).world =
        [ Request.mk (API_BASE_URL ++ endpoint)
            (setProp "Authorization" ("Bearer " ++ tok) (configHeaders options)) options.rest,
          Request.mk (API_BASE_URL ++ "/refresh-token")
            [("Content-Type", "application/json")]
            [("method", "POST"),
              ("body", "\x7b\"refresh_token\":" ++ jsonQuote r ++ "\x7d")],
          Request.mk (API_BASE_URL ++ endpoint)
            (setProp "Authorization" ("Bearer " ++ t) (configHeaders options)) options.rest ] ∧
      countUrl (API_BASE_URL ++ "/refresh-token")
        (fetchesSince w (apiRequest net w endpoint options).world) = 1 ∧
      countUrl (API_BASE_URL ++ endpoint)
        (fetchesSince w (apiRequest net w endpoint options).world) = 2 ∧
      (fetchesSince w (apiRequest net w endpoint options).world).length = 3 ∧
      lookupProp "Authorization"
          (setProp "Authorization" ("Bearer " ++ t) (configHeaders options))
        = some ("Bearer " ++ t) ∧
      (apiRequest net w endpoint options).result =
        (match net (w.fetches ++ [wrapperRequest endpoint options tok, refreshRequest r])
            (wrapperRequest endpoint options t) with
          | .rejected => .error .fetchRejected
          | .response retry => settle retry) ∧
      (∀ retryBody, net (w.fetches ++ [wrapperRequest endpoint options tok, refreshRequest r])
            (wrapperRequest endpoint options t) = .response ⟨401, retryBody⟩ →
          ∃ e, (apiRequest net w endpoint options).result = .error e) := by
  obtain ⟨hfetches, hresult⟩ := apiRequest_after_refresh net w endpoint options tok r t
    firstBody status body htok htok0 hr hr0 h401 href hlo hhi hbody
  have hne : ¬ (API_BASE_URL ++ endpoint = API_BASE_URL ++ "/refresh-token") :=
    fun h => hend (url_injective _ _ h)
  have hne2 : ¬ (API_BASE_URL ++ "/refresh-token" = API_BASE_URL ++ endpoint) :=
    fun h => hend (url_injective _ _ h.symm)
  have hsince : fetchesSince w (apiRequest net w endpoint options).world =
      [wrapperRequest endpoint options tok, refreshRequest r,
        wrapperRequest endpoint options t] := by
    simp [fetchesSince, hfetches]
  refine ⟨?_, ?_, ?_, ?_, lookupProp_setProp_self _ _ _, hresult, ?_⟩
  · rw [hsince]; rfl
  · rw [hsince]
    simp [countUrl, List.countP_cons, wrapperRequest, refreshRequest, hne]
  · rw [hsince]
    simp [countUrl, List.countP_cons, wrapperRequest, refreshRequest, hne2]
  · rw [hsince]; rfl
  intro retryBody hretry
  rw [hresult, hretry]
  simp only [settle, Response.ok]
  cases hp : getProp (Option.getD retryBody (Json.obj [])) "error" with
  | error e => exact ⟨e, by simp⟩
  | ok message =>
    by_cases hm : truthyVal message = true
    · cases hts : toJsString message with
      | error e => exact ⟨e, by simp [hm, hts]⟩
      | ok text => exact ⟨.error text, by simp [hm, hts]⟩
    · exact ⟨.error ("HTTP error! status: " ++ toString 401), by simp [hm]⟩

/-- C2, as stated, fails when the endpoint is `/logout`, as in `authAPI.logout` (api.js,
lines 59-63), and when it is `/refresh-token` while a refresh token is stored: with an
access token stored, a first answer 401 and a refresh that is answered 401, the calls are
the request, the refresh call and the call of `logout`; for `/logout` the first and the
last are the same request, so the endpoint is fetched twice, and for `/refresh-token` the
request and the refresh call go to the same URL. -/
theorem apiRequest_logout_endpoint_fetched_twice :
    tokenManager.getAccessToken signedInWorld.storage = some "old-access" ∧
      (∃ j, alwaysUnauthorized signedInWorld.fetches
          (wrapperRequest "/logout" logoutCallOptions "old-access") = .response ⟨401, j⟩) ∧
      (∃ resp, alwaysUnauthorized
          (signedInWorld.fetches ++ [wrapperRequest "/logout" logoutCallOptions "old-access"])
          (refreshRequest "refresh-1") = .response resp ∧ resp.ok = false) ∧
      (apiRequest alwaysUnauthorized signedInWorld "/logout" logoutCallOptions).result
        = .ok .null ∧
      fetchesSince signedInWorld
          (apiRequest alwaysUnauthorized signedInWorld "/logout" logoutCallOptions).world =
        [ Request.mk "http://localhost:5000/api/logout"
            [("Content-Type", "application/json"), ("Authorization", "Bearer old-access")]
            [("method", "POST")],
          refreshRequest "refresh-1",
          Request.mk "http://localhost:5000/api/logout"
            [("Content-Type", "application/json"), ("Authorization", "Bearer old-access")]
            [("method", "POST")] ] ∧
      countUrl "http://localhost:5000/api/logout"
        (fetchesSince signedInWorld
          (apiRequest alwaysUnauthorized signedInWorld "/logout" logoutCallOptions).world)
        = 2 ∧
      countUrl "http://localhost:5000/api/refresh-token"
        (fetchesSince signedInWorld
          (apiRequest alwaysUnauthorized signedInWorld "/refresh-token"
            refreshCallOptions).world)
        = 2 :=
  ⟨rfl, ⟨_, rfl⟩, ⟨_, rfl, rfl⟩, rfl, rfl, rfl, rfl⟩

/-- C2, amended: for an endpoint other than `/logout` and `/refresh-token`, with a stored
(non-empty) access token `tok`, if the answer has status 401 and the refresh fails (no
refresh token stored, or the refresh call rejects, or it answers outside the success
range), then the promise resolves to `null` (it does not reject), the access token, the
refresh token and the cached user are absent from storage, the location is set to
`/login`, and the URL of the endpoint is fetched exactly once: the request is not sent
again. The only other calls are the `POST` to `/refresh-token` when a refresh token is
stored, and the `POST` to `/logout` that `logout` sends with the old token. -/
theorem apiRequest_refresh_failure_clears_session (net : Network) (w : World)
    (endpoint : String) (options : Options) (tok : String) (firstBody : Option Json)
    (hend1 : endpoint ≠ "/logout") (hend2 : endpoint ≠ "/refresh-token")
    (htok : tokenManager.getAccessToken w.storage = some tok) (htok0 : tok ≠ "")
    (h401 : net w.fetches (wrapperRequest endpoint options tok) = .response ⟨401, firstBody⟩)
    (hfail : (tokenManager.getRefreshToken w.storage = none ∨
          tokenManager.getRefreshToken w.storage = some "") ∨
        ∃ r, tokenManager.getRefreshToken w.storage = some r ∧ r ≠ "" ∧
          (net (w.fetches ++ [wrapperRequest endpoint options tok]) (refreshRequest r)
              = .rejected ∨
            ∃ resp, net (w.fetches ++ [wrapperRequest endpoint options tok]) (refreshRequest r)
              = .response resp ∧ resp.ok = false)) :
    (apiRequest net w endpoint options).result = .ok .null ∧
      tokenManager.getAccessToken (apiRequest net w endpoint options).world.storage = none ∧
      tokenManager.getRefreshToken (apiRequest net w endpoint options).world.storage = none ∧
      getItem (apiRequest net w endpoint options).world.storage userKey = none ∧
      (apiRequest net w endpoint options).world.location = some "/login" ∧
      fetchesSince w (apiRequest net w endpoint options).world =
        Request.mk (API_BASE_URL ++ endpoint)
            (setProp "Authorization" ("Bearer " ++ tok) (configHeaders options)) options.rest ::
          (refreshAttempt w.storage ++
            [Request.mk (API_BASE_URL ++ "/logout")
              [("Content-Type", "application/json"), ("Authorization", "Bearer " ++ tok)]
              [("method", "POST")]]) ∧
      countUrl (API_BASE_URL ++ endpoint)
        (fetchesSince w (apiRequest net w endpoint options).world) = 1 ∧
      countUrl (API_BASE_URL ++ "/logout")
        (fetchesSince w (apiRequest net w endpoint options).world) = 1 ∧
      countUrl (API_BASE_URL ++ "/refresh-token")
        (fetchesSince w (apiRequest net w endpoint options).world)
          = (refreshAttempt w.storage).length ∧
      (refreshAttempt w.storage).length ≤ 1 := by
  have key := apiRequest_after_failed_refresh net w endpoint options tok firstBody htok htok0
    h401 hfail
  have hn1 : ¬ (API_BASE_URL ++ endpoint = API_BASE_URL ++ "/logout") :=
    fun h => hend1 (url_injective _ _ h)
  have hn2 : ¬ (API_BASE_URL ++ endpoint = API_BASE_URL ++ "/refresh-token") :=
    fun h => hend2 (url_injective _ _ h)
  have hn3 : ¬ (API_BASE_URL ++ "/logout" = API_BASE_URL ++ endpoint) :=
    fun h => hend1 (url_injective _ _ h.symm)
  have hn4 : ¬ (API_BASE_URL ++ "/refresh-token" = API_BASE_URL ++ endpoint) :=
    fun h => hend2 (url_injective _ _ h.symm)
  have hn5 : ¬ (API_BASE_URL ++ "/refresh-token" = API_BASE_URL ++ "/logout") := by decide
  have hn6 : ¬ (API_BASE_URL ++ "/logout" = API_BASE_URL ++ "/refresh-token") := by decide
  have hlogout : logoutRequest w.storage =
      Request.mk (API_BASE_URL ++ "/logout")
        [("Content-Type", "application/json"), ("Authorization", "Bearer " ++ tok)]
        [("method", "POST")] := by
    simp [logoutRequest, htok, tokenText]
  have hsince : fetchesSince w (apiRequest net w endpoint options).world =
      wrapperRequest endpoint options tok ::
        (refreshAttempt w.storage ++ [logoutRequest w.storage]) := by
    simp [fetchesSince, key]
  rw [hsince, key]
  refine ⟨rfl, clearTokens_access _, clearTokens_refresh _, clearTokens_user _, rfl, ?_,
    ?_, ?_, ?_, ?_⟩
  · rw [hlogout]; rfl
  all_goals
    unfold refreshAttempt
    cases tokenManager.getRefreshToken w.storage with
    | none =>
      simp [countUrl, List.countP_cons, wrapperRequest, logoutRequest, hn1, hn2, hn3, hn4,
        hn5, hn6]
    | some r =>
      by_cases hr : r = "" <;>
        simp [hr, countUrl, List.countP_cons, wrapperRequest, logoutRequest, refreshRequest,
          hn1, hn2, hn3, hn4, hn5, hn6]

/-- C1, amended, on a sample session: the three calls made against a server that answers
401, then accepts the refresh, then answers 401 again. -/
theorem apiRequest_refresh_then_retry_once_witness :
    fetchesSince signedInWorld
        (apiRequest expiredThenRefreshed signedInWorld "/user/profile" plainOptions).world =
      [ { url := "http://localhost:5000/api/user/profile"
          headers := [("Content-Type", "application/json"),
            ("Authorization", "Bearer old-access")]
          init := [("method", "GET")] },
        { url := "http://localhost:5000/api/refresh-token"
          headers := [("Content-Type", "application/json")]
          init := [("method", "POST"), ("body", "\x7b\"refresh_token\":\"refresh-1\"\x7d")] },
        { url := "http://localhost:5000/api/user/profile"
          headers := [("Content-Type", "application/json"),
            ("Authorization", "Bearer new-access")]
          init := [("method", "GET")] } ] ∧
      countUrl "http://localhost:5000/api/refresh-token"
        (fetchesSince signedInWorld
          (apiRequest expiredThenRefreshed signedInWorld "/user/profile" plainOptions).world)
        = 1 :=
  have h := apiRequest_refresh_then_retry_once expiredThenRefreshed signedInWorld
    "/user/profile" plainOptions "old-access" "refresh-1" "new-access" none 200
    (.obj [("access_token", .str "new-access")]) (by decide) rfl (by decide) rfl (by decide)
    rfl rfl (by decide) (by decide) rfl
  ⟨h.1, h.2.1⟩

/-- C2, amended, on a sample session: against a server that answers 401 to everything the
promise resolves to `null` and the endpoint is fetched once. -/
theorem apiRequest_refresh_failure_clears_session_witness :
    (apiRequest alwaysUnauthorized signedInWorld "/user/profile" plainOptions).result
        = .ok .null ∧
      countUrl "http://localhost:5000/api/user/profile"
        (fetchesSince signedInWorld
          (apiRequest alwaysUnauthorized signedInWorld "/user/profile" plainOptions).world)
        = 1 :=
  have h := apiRequest_refresh_failure_clears_session alwaysUnauthorized signedInWorld
    "/user/profile" plainOptions "old-access" (some (.obj [("error", .str "Invalid token")]))
    (by decide) (by decide) rfl (by decide) rfl
    (Or.inr ⟨"refresh-1", rfl, by decide,
      Or.inr ⟨⟨401, some (.obj [("error", .str "Invalid token")])⟩, rfl, rfl⟩⟩)
  ⟨h.1, h.2.2.2.2.2.2.1⟩

/-- C9 on sample sessions: with a refresh token the new access token is stored; without
one nothing happens. -/
theorem refreshAccessToken_frame_witness :
    tokenManager.getAccessToken (refreshAccessToken refreshOk signedInWorld).2.storage
        = some "new-access" ∧
      refreshAccessToken refreshOk accessOnlyWorld = (false, accessOnlyWorld) :=
  ⟨((refreshAccessToken_frame refreshOk signedInWorld).1 "refresh-1" "new-access" 200
      (.obj [("access_token", .str "new-access")]) rfl (by decide) rfl (by decide) (by decide)
      rfl).2.1,
    (refreshAccessToken_frame refreshOk accessOnlyWorld).2 (Or.inl rfl)⟩

/-! ## The token store -/

/-- Whatever is stored, `isAuthenticated` returns a boolean: it does not throw. -/
theorem isAuthenticated_total (s : Storage) (now : Nat) :
    ∃ b, tokenManager.isAuthenticated s now = .ok b := by
  unfold tokenManager.isAuthenticated
  cases tokenManager.getAccessToken s with
  | none => exact ⟨false, rfl⟩
  | some token =>
    by_cases h : token = ""
    · exact ⟨false, by simp [h]⟩
    · cases hd : tokenManager.decodeAndCompare token now with
      | ok b => exact ⟨b, by simp [h, hd]⟩
      | error e => exact ⟨false, by simp [h, hd]⟩

/-- For a token whose middle segment `atob` decodes to the text of a JSON value with a
numeric `exp`, the answer is the comparison of `exp` with the clock in seconds. -/
theorem isAuthenticated_of_decodable (s : Storage) (now : Nat) (token seg text : String)
    (payload : Json) (m e : Int)
    (htok : tokenManager.getAccessToken s = some token) (hne : token ≠ "")
    (hseg : secondSegment token = some seg) (hdec : atob seg = .ok text)
    (hjson : jsonParse text = .ok payload)
    (hexp : getProp payload "exp" = .ok (some (.num m e))) :
    tokenManager.isAuthenticated s now = .ok ((JsNum.dec m e).gtSeconds now) := by
  simp [tokenManager.isAuthenticated, tokenManager.decodeAndCompare, htok, hne, hseg,
    stringOrUndefined, hdec, hjson, hexp, gtSeconds, toNumber, canConvert, numericValue]

/-- C4: when the access token is absent or empty, or has no second segment, or its middle
segment is rejected by `atob`, or the decoded text is rejected by `JSON.parse`, or the
payload is `null`, or the payload has no `exp`, then `isAuthenticated` returns `false`
(a returned value, not an exception). -/
theorem isAuthenticated_false_of_malformed (s : Storage) (now : Nat)
    (h : tokenManager.getAccessToken s = none ∨ tokenManager.getAccessToken s = some "" ∨
      ∃ token, tokenManager.getAccessToken s = some token ∧
        (secondSegment token = none ∨
          (∃ e, atob (stringOrUndefined (secondSegment token)) = .error e) ∨
          ∃ text, atob (stringOrUndefined (secondSegment token)) = .ok text ∧
            ((∃ e, jsonParse text = .error e) ∨ jsonParse text = .ok .null ∨
              ∃ payload, jsonParse text = .ok payload ∧ getProp payload "exp" = .ok none))) :
    tokenManager.isAuthenticated s now = .ok false := by
  have hundef : atob "undefined" = .error .invalidCharacter := by rfl
  unfold tokenManager.isAuthenticated
  rcases h with h | h | ⟨token, htok, h⟩
  · simp [h]
  · simp [h]
  · rw [htok]
    by_cases hne : token = ""
    · simp [hne]
    · simp only [hne, if_false]
      unfold tokenManager.decodeAndCompare
      rcases h with h | ⟨e, h⟩ | ⟨text, hdec, h⟩
      · simp [h, stringOrUndefined, hundef]
      · simp [h]
      · rw [hdec]
        rcases h with ⟨e, h⟩ | h | ⟨payload, hp, hexp⟩
        · simp [h]
        · simp [h, getProp]
        · simp [hp, hexp, gtSeconds]

/-- C4 on sample tokens, one for each way of being malformed: absent, empty, without a
dot, with a middle segment outside the base64 alphabet, with a middle segment that decodes
to an unbalanced brace, to `null`, and to an object without `exp`. -/
theorem isAuthenticated_false_of_malformed_witness :
    tokenManager.isAuthenticated [] sampleNow = .ok false ∧
      tokenManager.isAuthenticated (withAccessToken "") sampleNow = .ok false ∧
      tokenManager.isAuthenticated (withAccessToken "no-dots-here") sampleNow = .ok false ∧
      tokenManager.isAuthenticated (withAccessToken "a.!!!!.c") sampleNow = .ok false ∧
      tokenManager.isAuthenticated (withAccessToken "a.e2JhZA.c") sampleNow = .ok false ∧
      tokenManager.isAuthenticated (withAccessToken "a.bnVsbA.c") sampleNow = .ok false ∧
      tokenManager.isAuthenticated (withAccessToken "a.eyJzdWIiOiJhIn0.c") sampleNow
        = .ok false :=
  ⟨isAuthenticated_false_of_malformed [] sampleNow (Or.inl rfl),
    isAuthenticated_false_of_malformed (withAccessToken "") sampleNow (Or.inr (Or.inl rfl)),
    isAuthenticated_false_of_malformed (withAccessToken "no-dots-here") sampleNow
      (Or.inr (Or.inr ⟨"no-dots-here", rfl, Or.inl rfl⟩)),
    isAuthenticated_false_of_malformed (withAccessToken "a.!!!!.c") sampleNow
      (Or.inr (Or.inr ⟨"a.!!!!.c", rfl, Or.inr (Or.inl ⟨.invalidCharacter, rfl⟩)⟩)),
    isAuthenticated_false_of_malformed (withAccessToken "a.e2JhZA.c") sampleNow
      (Or.inr (Or.inr ⟨"a.e2JhZA.c", rfl,
        Or.inr (Or.inr ⟨"\x7bbad", rfl, Or.inl ⟨.syntaxError, rfl⟩⟩)⟩)),
    isAuthenticated_false_of_malformed (withAccessToken "a.bnVsbA.c") sampleNow
      (Or.inr (Or.inr ⟨"a.bnVsbA.c", rfl, Or.inr (Or.inr ⟨"null", rfl, Or.inr (Or.inl rfl)⟩)⟩)),
    isAuthenticated_false_of_malformed (withAccessToken "a.eyJzdWIiOiJhIn0.c") sampleNow
      (Or.inr (Or.inr ⟨"a.eyJzdWIiOiJhIn0.c", rfl,
        Or.inr (Or.inr ⟨"\x7b\"sub\":\"a\"\x7d", rfl,
          Or.inr (Or.inr ⟨.obj [("sub", .str "a")], rfl, rfl⟩)⟩)⟩))⟩

/-- C3, at the failing input: the middle segment of `underscoreToken` is the base64url
spelling of a JSON object whose `exp`, 9999999999, is later than the clock, and
`isAuthenticated` returns `false`, because `atob` rejects the underscore. Tokens in the
standard alphabet are answered by the comparison: `true` for `liveToken`, `false` for
`staleToken`. -/
theorem isAuthenticated_rejects_base64url_segment :
    secondSegment underscoreToken = some "eyJleHAiOjk5OTk5OTk5OTksIm5hbWUiOiI_Pz8ifQ" ∧
      atob (fromBase64Url "eyJleHAiOjk5OTk5OTk5OTksIm5hbWUiOiI_Pz8ifQ")
        = .ok "\x7b\"exp\":9999999999,\"name\":\"???\"\x7d" ∧
      jsonParse "\x7b\"exp\":9999999999,\"name\":\"???\"\x7d"
        = .ok (.obj [("exp", .num 9999999999 0), ("name", .str "???")]) ∧
      gtSeconds (some (.num 9999999999 0)) sampleNow = .ok true ∧
      atob "eyJleHAiOjk5OTk5OTk5OTksIm5hbWUiOiI_Pz8ifQ" = .error .invalidCharacter ∧
      tokenManager.isAuthenticated (withAccessToken underscoreToken) sampleNow = .ok false ∧
      tokenManager.isAuthenticated (withAccessToken liveToken) sampleNow = .ok true ∧
      tokenManager.isAuthenticated (withAccessToken staleToken) sampleNow = .ok false :=
  ⟨rfl, rfl, rfl, rfl, rfl, rfl, rfl, rfl⟩

/-- C5, at the failing input: for the stored text `undefined` (what `setUser` writes for a
missing profile) and for a text with an unquoted key, `getUser` throws a `SyntaxError`
instead of returning `null`; an absent or empty value gives `null` and a JSON text gives
its value. -/
theorem getUser_throws_on_malformed_text :
    tokenManager.getUser (withUser "undefined") = .error .syntaxError ∧
      tokenManager.getUser (withUser "\x7bid:1\x7d") = .error .syntaxError ∧
      tokenManager.getUser [] = .ok .null ∧
      tokenManager.getUser (withUser "") = .ok .null ∧
      tokenManager.getUser userSession
        = .ok (.obj [("id", .num 2 0), ("is_admin", .bool false)]) :=
  ⟨rfl, rfl, rfl, rfl, rfl⟩

/-- C6, as stated, fails without a cached user: `isAdmin` returns `null`, which is not the
boolean `false`. -/
theorem isAdmin_without_user_is_null :
    getItem [] userKey = none ∧ tokenManager.isAdmin [] = .ok .null ∧
      tokenManager.isAdmin [] ≠ .ok (.bool false) :=
  ⟨rfl, rfl, fun h => by cases h⟩

/-- C6, amended: when the value under the user key is absent, empty or a JSON text (so
that `getUser` returns `user`), `isAdmin` returns the boolean `true` exactly when `user`
is an object whose `is_admin` is the boolean `true`; in every other case it returns a
falsy value, the boolean `false` for a truthy `user` and `user` itself (`null` when
nothing is cached) for a falsy one. -/
theorem isAdmin_true_iff_flag_is_true (s : Storage) (user : Json)
    (h : tokenManager.getUser s = .ok user) :
    (tokenManager.isAdmin s = .ok (.bool true) ↔
        ∃ props, user = .obj props ∧ lookupProp "is_admin" props = some (.bool true)) ∧
      (tokenManager.isAdmin s ≠ .ok (.bool true) →
        (truthy user = true ∧ tokenManager.isAdmin s = .ok (.bool false)) ∨
          (truthy user = false ∧ tokenManager.isAdmin s = .ok user)) ∧
      (getItem s userKey = none → tokenManager.isAdmin s = .ok .null) := by
  have hnone : getItem s userKey = none → user = .null := by
    intro hn
    simp [tokenManager.getUser, hn] at h
    exact h.symm
  refine ⟨?_, ?_, ?_⟩
  · cases user with
    | null => simp [tokenManager.isAdmin, h, truthy]
    | bool b => cases b <;> simp [tokenManager.isAdmin, h, truthy, getProp, strictEqTrue]
    | num m e =>
      by_cases hm : m = 0 <;> simp [tokenManager.isAdmin, h, truthy, getProp, strictEqTrue, hm]
    | str t =>
      by_cases ht : t = "" <;> simp [tokenManager.isAdmin, h, truthy, getProp, strictEqTrue, ht]
    | arr items => simp [tokenManager.isAdmin, h, truthy, getProp, strictEqTrue]
    | obj props =>
      simp only [tokenManager.isAdmin, h, truthy, getProp, if_true]
      cases hf : lookupProp "is_admin" props with
      | none => simp [strictEqTrue, hf]
      | some v =>
        cases v with
        | bool b => cases b <;> simp [strictEqTrue, hf]
        | _ => simp [strictEqTrue, hf]
  · intro hnot
    by_cases ht : truthy user = true
    · left
      refine ⟨ht, ?_⟩
      cases user with
      | null => simp [truthy] at ht
      | obj props =>
        simp only [tokenManager.isAdmin, h, truthy, getProp, if_true] at hnot ⊢
        cases hf : strictEqTrue (lookupProp "is_admin" props) with
        | true => simp [hf] at hnot
        | false => rfl
      | _ => simp [tokenManager.isAdmin, h, ht, getProp, strictEqTrue]
    · right
      refine ⟨by simpa using ht, ?_⟩
      simp [tokenManager.isAdmin, h, ht]
  · intro hn
    have hu := hnone hn
    subst hu
    simp [tokenManager.isAdmin, h, truthy]

/-- C6, amended, on sample sessions: an admin profile gives `true`, a profile whose flag
is `false` gives the boolean `false`. -/
theorem isAdmin_true_iff_flag_is_true_witness :
    tokenManager.isAdmin adminSession = .ok (.bool true) ∧
      ((truthy (.obj [("id", .num 2 0), ("is_admin", .bool false)]) = true ∧
          tokenManager.isAdmin userSession = .ok (.bool false)) ∨
        (truthy (.obj [("id", .num 2 0), ("is_admin", .bool false)]) = false ∧
          tokenManager.isAdmin userSession
            = .ok (.obj [("id", .num 2 0), ("is_admin", .bool false)]))) :=
  ⟨(isAdmin_true_iff_flag_is_true adminSession
      (.obj [("id", .num 1 0), ("is_admin", .bool true)]) rfl).1.2
      ⟨[("id", .num 1 0), ("is_admin", .bool true)], rfl, rfl⟩,
    (isAdmin_true_iff_flag_is_true userSession
      (.obj [("id", .num 2 0), ("is_admin", .bool false)]) rfl).2.1
      (fun h => by cases h)⟩

/-! ## Headers of the issued request -/

/-- Without a `headers` property in `options`, the headers start from `Content-Type`
alone. -/
theorem configHeaders_without_own_headers (options : Options) (h : options.headers = none) :
    configHeaders options = [("Content-Type", "application/json")] := by
  simp [configHeaders, mergedHeaders, h, spreadInto]

/-- With a `headers` property in `options`, the headers of the request start from the
caller's object alone. -/
theorem configHeaders_with_own_headers (options : Options) (own : List (String × String))
    (h : options.headers = some own) : configHeaders options = own := by
  simp [configHeaders, h]

/-- C7, at the failing input: for options that carry the headers object with the single
field `X-Request-Id`, while the access token `old-access` is stored, the request that is
issued has no `Content-Type` header, and the caller's headers object has gained an
`Authorization` field. Options without a `headers` property give both headers. -/
theorem apiRequest_own_headers_lose_content_type :
    (apiRequest alwaysOk accessOnlyWorld "/parking-lots" optionsWithHeaders).world.fetches =
        [ { url := "http://localhost:5000/api/parking-lots"
            headers := [("X-Request-Id", "42"), ("Authorization", "Bearer old-access")]
            init := [("method", "GET")] } ] ∧
      lookupProp "Content-Type"
        [("X-Request-Id", "42"), ("Authorization", "Bearer old-access")] = none ∧
      optionsWithHeaders.headers = some [("X-Request-Id", "42")] ∧
      (apiRequest alwaysOk accessOnlyWorld "/parking-lots" optionsWithHeaders).callerHeaders =
        some [("X-Request-Id", "42"), ("Authorization", "Bearer old-access")] ∧
      (apiRequest alwaysOk accessOnlyWorld "/parking-lots" plainOptions).world.fetches =
        [ { url := "http://localhost:5000/api/parking-lots"
            headers := [("Content-Type", "application/json"),
              ("Authorization", "Bearer old-access")]
            init := [("method", "GET")] } ] :=
  ⟨rfl, rfl, rfl, rfl, rfl⟩

/-! ## Route guards -/

/-- An authenticated session whose `isAdmin` is falsy is sent to `/user-dashboard` by
`requireAdmin`: one call of `next`, with that path. -/
theorem requireAdmin_of_non_admin (s : Storage) (now1 now2 : Nat) (v : Json)
    (h1 : tokenManager.isAuthenticated s now1 = .ok true)
    (h2 : tokenManager.isAuthenticated s now2 = .ok true)
    (hadmin : tokenManager.isAdmin s = .ok v) (hv : truthy v = false) :
    requireAdmin s now1 now2 = .ok [some "/user-dashboard"] := by
  simp [requireAdmin, authenticatedAndAdmin, h1, h2, hadmin, hv]

/-- C8, at the failing input: for an authenticated session whose cached profile is not
admin, `requireAdmin` calls `next` once with `/user-dashboard`; that path is not among the
registered routes, whose user dashboard is `/dashboard`. -/
theorem requireAdmin_redirects_to_unregistered_path :
    tokenManager.isAuthenticated userSession sampleNow = .ok true ∧
      tokenManager.isAdmin userSession = .ok (.bool false) ∧
      requireAdmin userSession sampleNow sampleNow = .ok [some "/user-dashboard"] ∧
      "/user-dashboard" ∉ routePaths ∧
      routePaths = ["/", "/login", "/register", "/admin", "/dashboard"] :=
  ⟨rfl, rfl, rfl, by decide, rfl⟩

/-- C10, at the failing inputs: in an authenticated session without a cached user,
`redirectIfAuthenticated` throws a `TypeError` and never calls `next`; in an authenticated
session whose `is_admin` is the number 1, `isAdmin` is `false` and `requireUser` proceeds,
yet `redirectIfAuthenticated` sends to `/admin-dashboard`, where `requireAdmin` does not
proceed. -/
theorem redirectIfAuthenticated_disagrees_with_isAdmin :
    tokenManager.isAuthenticated tokenOnlySession sampleNow = .ok true ∧
      tokenManager.isAdmin tokenOnlySession = .ok .null ∧
      redirectIfAuthenticated tokenOnlySession sampleNow = .error .typeError ∧
      tokenManager.isAuthenticated numericFlagSession sampleNow = .ok true ∧
      tokenManager.isAdmin numericFlagSession = .ok (.bool false) ∧
      redirectIfAuthenticated numericFlagSession sampleNow = .ok [some "/admin-dashboard"] ∧
      requireAdmin numericFlagSession sampleNow sampleNow = .ok [some "/user-dashboard"] ∧
      requireUser numericFlagSession sampleNow sampleNow = .ok [none] :=
  ⟨rfl, rfl, rfl, rfl, rfl, rfl, rfl, rfl⟩

end ParkMate
